import Mathlib

/-!
Verification development for the bible text-conversion scripts.

The Python sources under scripts/ are shallowly embedded here:
pure functions on strings become Lean functions on List Char / String,
the line-oriented converters become explicit folds over line lists, and
every regular-expression substitution is embedded as a specialized
leftmost-match scanner mirroring CPython re semantics (leftmost match,
greedy / lazy quantifiers, lookahead) for the concrete pattern.
Unicode-dependent Python behaviour (str.strip, \s, \d, \b, str.isdigit,
int()) is modelled on its ASCII fragment, which is the fragment every
theorem below exercises.
-/

namespace Bible

/-- ASCII fragment of Python's whitespace class \s: space, \t, \n, \r, \v, \f. -/
def isWsC (c : Char) : Bool :=
  c = ' ' || c = '\t' || c = '\n' || c = '\r' || c = '\x0b' || c = '\x0c'

/-- ASCII decimal digit, the ASCII fragment of Python's \d / str.isdigit. -/
def isDigitC (c : Char) : Bool := c.isDigit

/-- ASCII letter. -/
def isAlphaC (c : Char) : Bool := c.isAlpha

/-- ASCII fragment of Python's word class \w used by the \b boundary:
letters, digits and underscore. -/
def isWordC (c : Char) : Bool := c.isAlpha || c.isDigit || c = '_'

/-- Python str.strip() (ASCII whitespace): drop leading and trailing whitespace. -/
def pyStrip (l : List Char) : List Char :=
  ((l.dropWhile isWsC).reverse.dropWhile isWsC).reverse

/-- Python str.rstrip() (ASCII whitespace). -/
def pyRstrip (l : List Char) : List Char :=
  (l.reverse.dropWhile isWsC).reverse

/-- String wrapper for pyStrip. -/
def pyStripS (s : String) : String := String.mk (pyStrip s.data)

/-- String wrapper for pyRstrip. -/
def pyRstripS (s : String) : String := String.mk (pyRstrip s.data)

/-- Helper for pySplit: acc holds the reversed current word. -/
def pySplitAux : List Char → List Char → List (List Char)
  | acc, [] => if acc.isEmpty then [] else [acc.reverse]
  | acc, c :: l =>
    if isWsC c then
      if acc.isEmpty then pySplitAux [] l else acc.reverse :: pySplitAux [] l
    else pySplitAux (c :: acc) l

/-- Python str.split() with no argument: split on whitespace runs,
dropping empty pieces. -/
def pySplit (l : List Char) : List (List Char) := pySplitAux [] l

/-- Python " ".join applied to a list of words. -/
def joinSpace : List (List Char) → List Char
  | [] => []
  | [w] => w
  | w :: ws => w ++ ' ' :: joinSpace ws

/-- Python " ".join(s.split()): whitespace normalization used by write_verses. -/
def pyNormalize (l : List Char) : List Char := joinSpace (pySplit l)

/-- String wrapper for pyNormalize. -/
def pyNormalizeS (s : String) : String := String.mk (pyNormalize s.data)

/-- Python " ".join over a list of strings. -/
def joinSpaceS (l : List String) : String := String.mk (joinSpace (l.map String.data))

/-- Substring containment, Python's "a in b" on strings. -/
def isSubList (pat : List Char) : List Char → Bool
  | [] => pat.isPrefixOf []
  | c :: l => pat.isPrefixOf (c :: l) || isSubList pat l

/-- String wrapper for isSubList. -/
def containsSub (pat s : String) : Bool := isSubList pat.data s.data

/-- Python str.startswith on strings. -/
def pyStartsWith (s pre : String) : Bool := pre.data.isPrefixOf s.data

/-- Python str.upper, ASCII fragment. -/
def pyUpper (s : String) : String := String.mk (s.data.map Char.toUpper)

/-! ### Deterministic scanners for the individual regular expressions

Each matcher consumes a prefix of its input and returns the remaining
suffix (None when the pattern does not match at this position).  The
generic driver runSub below then supplies CPython re.sub's scan loop:
try the pattern at every position from the left, replace on a match and
resume right after it, otherwise advance one character. -/

/-- Consume the literal character sequence lit. -/
def eatLit : List Char → List Char → Option (List Char)
  | [], s => some s
  | _ :: _, [] => none
  | c :: cs, d :: s => if d = c then eatLit cs s else none

/-- Consume the literal character sequence lit, ASCII case-insensitively
(for patterns compiled with re.IGNORECASE). -/
def eatLitCI : List Char → List Char → Option (List Char)
  | [], s => some s
  | _ :: _, [] => none
  | c :: cs, d :: s => if d.toLower = c.toLower then eatLitCI cs s else none

/-- Consume a maximal nonempty run of characters satisfying p (greedy p+
where the following pattern element cannot match a p-character, so no
backtracking is needed). -/
def eatRun1 (p : Char → Bool) : List Char → Option (List Char)
  | [] => none
  | c :: s => if p c then some (s.dropWhile p) else none

/-- Consume \s+ (greedy). -/
def eatWs1 : List Char → Option (List Char) := eatRun1 isWsC

/-- Consume \d+ (greedy). -/
def eatDigits1 : List Char → Option (List Char) := eatRun1 isDigitC

/-- Lazy scan for a class [^bad]*? followed by the continuation k:
try k at the current position; on failure consume one character that is
not bad and retry; stop with failure on a bad character that k rejects
or at the end of input.  This is exactly the backtracking behaviour of
a lazy class followed by the rest of the pattern. -/
def lazyScan (bad : Char → Bool) (k : List Char → Option (List Char)) :
    List Char → Option (List Char)
  | [] => k []
  | c :: rest =>
    match k (c :: rest) with
    | some r => some r
    | none => if bad c then none else lazyScan bad k rest

/-- Matcher for r"\\f\s+[^\\]*?\\fr\s+[^\\]*?\\ft\s+[^\\]*?\\f\*"
(clean_usfm_text line 45 and preprocess_usfm_line line 117). -/
def matchFootnoteFrFt (s : List Char) : Option (List Char) :=
  (eatLit ['\\', 'f'] s).bind fun s => (eatWs1 s).bind fun s =>
  lazyScan (· = '\\')
    (fun t => (eatLit ['\\', 'f', 'r'] t).bind fun t => (eatWs1 t).bind fun t =>
      lazyScan (· = '\\')
        (fun u => (eatLit ['\\', 'f', 't'] u).bind fun u => (eatWs1 u).bind fun u =>
          lazyScan (· = '\\') (eatLit ['\\', 'f', '*']) u)
        t)
    s

/-- Matcher for r"\\f[^\\]*?\\f\*" (clean_usfm_text line 47,
preprocess_usfm_line line 118). -/
def matchFootnoteSimple (s : List Char) : Option (List Char) :=
  (eatLit ['\\', 'f'] s).bind fun s =>
  lazyScan (· = '\\') (eatLit ['\\', 'f', '*']) s

/-- Matcher for r"\\x\s+[^\\]*?\\x\*" (preprocess_usfm_line line 115). -/
def matchXref (s : List Char) : Option (List Char) :=
  (eatLit ['\\', 'x'] s).bind fun s => (eatWs1 s).bind fun s =>
  lazyScan (· = '\\') (eatLit ['\\', 'x', '*']) s

/-- The lookahead (?=\\|\s+[a-z]|$) of clean_usfm_text line 50, with
re.IGNORECASE making [a-z] any ASCII letter.  \s+[a-z] succeeds iff the
position starts with whitespace and the first non-whitespace character
after it is a letter. -/
def colonRefLookahead : List Char → Bool
  | [] => true
  | c :: rest =>
    c = '\\' || (isWsC c && (((c :: rest).dropWhile isWsC).headD ' ').isAlpha)

/-- Matcher for r"\s+\d+:\d+\s+[^\\]*?(?=\\|\s+[a-z]|$)" with
re.IGNORECASE (clean_usfm_text line 50). -/
def matchColonRef (s : List Char) : Option (List Char) :=
  (eatWs1 s).bind fun s => (eatDigits1 s).bind fun s =>
  (eatLit [':'] s).bind fun s => (eatDigits1 s).bind fun s =>
  (eatWs1 s).bind fun s =>
  lazyScan (· = '\\') (fun t => if colonRefLookahead t then some t else none) s

/-- Matcher for r"\+\s*\d+:\d+\s+[^.]*\." (clean_usfm_text line 51).
The greedy [^.]* cannot cross a dot, so it extends exactly to the next
dot, which the final \. then consumes. -/
def matchPlusColonRef (s : List Char) : Option (List Char) :=
  (eatLit ['+'] s).bind fun s =>
  (eatDigits1 (s.dropWhile isWsC)).bind fun s =>
  (eatLit [':'] s).bind fun s => (eatDigits1 s).bind fun s =>
  (eatWs1 s).bind fun s =>
  eatLit ['.'] (s.dropWhile (fun c => !(c = '.')))

/-- Matcher for r"\+[^\\]*" (clean_usfm_text line 52). -/
def matchPlusRun (s : List Char) : Option (List Char) :=
  (eatLit ['+'] s).map fun s => s.dropWhile (fun c => !(c = '\\'))

/-- Matcher for r"\\+" (clean_usfm_text line 53): a nonempty run of
backslashes.  Note that this runs before the word-marker and \strong
rules, so after this pass no backslash remains in the text. -/
def matchBackslashRun (s : List Char) : Option (List Char) :=
  eatRun1 (· = '\\') s

/-- Matcher for
r"\s+The\s+[A-Z][^.]*?rendered[^.]*?is[^.]*?\"[^\"]*\"[^.]*?\." (case
sensitive, clean_usfm_text line 55).  Lazy [^.]*? classes backtrack by
scanning forward for the next occurrence of their following literal,
never crossing a dot. -/
def matchRendered (s : List Char) : Option (List Char) :=
  (eatWs1 s).bind fun s => (eatLit ['T', 'h', 'e'] s).bind fun s =>
  (eatWs1 s).bind fun s =>
  (match s with
   | [] => none
   | c :: rest => if 'A' ≤ c && c ≤ 'Z' then some rest else none).bind fun s =>
  lazyScan (· = '.')
    (fun t => (eatLit ['r', 'e', 'n', 'd', 'e', 'r', 'e', 'd'] t).bind fun t =>
      lazyScan (· = '.')
        (fun u => (eatLit ['i', 's'] u).bind fun u =>
          lazyScan (· = '.')
            (fun v => (eatLit ['"'] v).bind fun v =>
              (eatLit ['"'] (v.dropWhile (fun c => !(c = '"')))).bind fun v =>
              lazyScan (· = '.') (eatLit ['.']) v)
            u)
        t)
    s

/-- Python's str.replace(old, "") deleting every occurrence of old,
scanning left to right.  Structural recursion on a fuel bounded by the
input length keeps the definition kernel-reducible; the fuel never runs
out because every recursive call shortens the text. -/
def removeAllSubF (pat : List Char) : Nat → List Char → List Char
  | _, [] => []
  | 0, l => l
  | fuel + 1, c :: rest =>
    match eatLit pat (c :: rest) with
    | some r =>
      if r.length ≤ rest.length then removeAllSubF pat fuel r
      else c :: removeAllSubF pat fuel rest
    | none => c :: removeAllSubF pat fuel rest

/-- Entry point of removeAllSubF with sufficient fuel. -/
def removeAllSub (pat l : List Char) : List Char :=
  removeAllSubF pat l.length l

/-- Generic left-to-right re.sub scan loop.  step receives the previous
original character (for word-boundary tests) and the current suffix; on
a match it returns the replacement and the remaining suffix.  A match
that consumes nothing is treated as no match (none of the embedded
patterns can match the empty string).  On no match the scan advances one
character.  Fuel-structural for kernel reducibility; every step consumes
at least one character, so fuel = length never runs out. -/
def runSubF (step : Option Char → List Char → Option (List Char × List Char)) :
    Nat → Option Char → List Char → List Char
  | _, _, [] => []
  | 0, _, l => l
  | fuel + 1, prev, c :: rest =>
    match step prev (c :: rest) with
    | some (rep, remaining) =>
      if remaining.length ≤ rest.length then
        rep ++ runSubF step fuel ((c :: rest)[(rest.length - remaining.length)]?) remaining
      else c :: runSubF step fuel (some c) rest
    | none => c :: runSubF step fuel (some c) rest

/-- Apply one substitution pass over the whole text (prev starts empty at
the beginning of the string). -/
def pySub (step : Option Char → List Char → Option (List Char × List Char))
    (l : List Char) : List Char :=
  runSubF step l.length none l

/-- Lift a plain matcher (no boundary context, empty replacement) to a
substitution step. -/
def delStep (m : List Char → Option (List Char)) :
    Option Char → List Char → Option (List Char × List Char) :=
  fun _ s => (m s).map fun r => ([], r)

/-- The body of replace_word (clean_usfm_text lines 60-71), applied to
the full matched span of r"\\w\s+[^\\]*?\\w\*".  If the span contains a
pipe, the text before the first pipe with every literal "\w" removed and
stripped; otherwise the span with r"\\w\s*" then r"\\w\*" substituted
away and stripped.  A space is appended either way. -/
def replaceWord (span : List Char) : List Char :=
  if span.contains '|' then
    pyStrip (removeAllSub ['\\', 'w'] (span.takeWhile (fun c => !(c = '|')))) ++ [' ']
  else
    let s1 := pySub (delStep fun t =>
      (eatLit ['\\', 'w'] t).map fun t => t.dropWhile isWsC) span
    let s2 := pySub (delStep (eatLit ['\\', 'w', '*'])) s1
    pyStrip s2 ++ [' ']

/-- Step for r"\\w\s+[^\\]*?\\w\*" with the replace_word replacement
function (clean_usfm_text line 74).  The replacement is computed from
the consumed span. -/
def wordMarkerStep : Option Char → List Char → Option (List Char × List Char) :=
  fun _ s =>
    ((eatLit ['\\', 'w'] s).bind fun t => (eatWs1 t).bind fun t =>
      lazyScan (· = '\\') (eatLit ['\\', 'w', '*']) t).map fun remaining =>
      (replaceWord (s.take (s.length - remaining.length)), remaining)

/-- Matcher for r"\\strong=\"[^\"]*\"" (clean_usfm_text line 77). -/
def matchStrongAttr (s : List Char) : Option (List Char) :=
  (eatLit ['\\', 's', 't', 'r', 'o', 'n', 'g', '=', '"'] s).bind fun s =>
  eatLit ['"'] (s.dropWhile (fun c => !(c = '"')))

/-- Matcher for r"\+wh[^+]*\+wh\*" (clean_usfm_text line 80).  The greedy
[^+]* extends exactly to the next plus. -/
def matchWh (s : List Char) : Option (List Char) :=
  (eatLit ['+', 'w', 'h'] s).bind fun s =>
  eatLit ['+', 'w', 'h', '*'] (s.dropWhile (fun c => !(c = '+')))

/-- Matcher for r"\+[^+]*\+" (clean_usfm_text line 81). -/
def matchPlusPlus (s : List Char) : Option (List Char) :=
  (eatLit ['+'] s).bind fun s =>
  eatLit ['+'] (s.dropWhile (fun c => !(c = '+')))

/-- The character class of clean_usfm_text line 84: Hebrew letters
U+05D0-U+05EA and Hebrew points/punctuation U+0591-U+05F4. -/
def isHebrewC (c : Char) : Bool :=
  (0x5D0 ≤ c.toNat && c.toNat ≤ 0x5EA) || (0x591 ≤ c.toNat && c.toNat ≤ 0x5F4)

/-- Matcher for r"[א-ת֑-״]+" (clean_usfm_text line 84). -/
def matchHebrew (s : List Char) : Option (List Char) :=
  eatRun1 isHebrewC s

/-- Matcher for r"\\[A-Za-z0-9*]+\s*" (clean_usfm_text line 87). -/
def matchBsControl (s : List Char) : Option (List Char) :=
  (eatLit ['\\'] s).bind fun s =>
  (eatRun1 (fun c => c.isAlpha || c.isDigit || c = '*') s).map fun s =>
  s.dropWhile isWsC

/-- Word boundary \b before the current position: the previous original
character (if any) is not a word character; the matched character is. -/
def noWordBefore : Option Char → Bool
  | none => true
  | some c => !isWordC c

/-- Word boundary \b after a word character: the next character (if any)
is not a word character. -/
def noWordAfter : List Char → Bool
  | [] => true
  | c :: _ => !isWordC c

/-- Membership in the class [bmsq]. -/
def isBmsqC (c : Char) : Bool := c = 'b' || c = 'm' || c = 's' || c = 'q'

/-- Step for r"\b[bmsq]\s+[bmsq]\b" (clean_usfm_text line 91). -/
def pairBmsqStep : Option Char → List Char → Option (List Char × List Char) :=
  fun prev s =>
    if noWordBefore prev then
      ((match s with
        | c :: rest => if isBmsqC c then some rest else none
        | [] => none).bind fun t => (eatWs1 t).bind fun t =>
        match t with
        | d :: rest => if isBmsqC d && noWordAfter rest then some rest else none
        | [] => none).map fun r => ([], r)
    else none

/-- Step for r"\b[bmsq]\d*\b" (clean_usfm_text line 92).  The greedy \d*
takes the whole digit run; shortening it would put the final \b between
two word characters, so no backtracking can succeed. -/
def bmsqDigitsStep : Option Char → List Char → Option (List Char × List Char) :=
  fun prev s =>
    if noWordBefore prev then
      (match s with
       | c :: rest =>
         if isBmsqC c then
           let r := rest.dropWhile isDigitC
           if noWordAfter r then some r else none
         else none
       | [] => none).map fun r => ([], r)
    else none

/-- Step for r"\bli\d+\b" (clean_usfm_text line 93). -/
def liStep : Option Char → List Char → Option (List Char × List Char) :=
  fun prev s =>
    if noWordBefore prev then
      ((eatLit ['l', 'i'] s).bind fun t => (eatDigits1 t).bind fun t =>
        if noWordAfter t then some t else none).map fun r => ([], r)
    else none

/-- Step for r"\bpmo\b" (clean_usfm_text line 94). -/
def pmoStep : Option Char → List Char → Option (List Char × List Char) :=
  fun prev s =>
    if noWordBefore prev then
      ((eatLit ['p', 'm', 'o'] s).bind fun t =>
        if noWordAfter t then some t else none).map fun r => ([], r)
    else none

/-- Step for r"\bp\b" (clean_usfm_text line 95). -/
def pStep : Option Char → List Char → Option (List Char × List Char) :=
  fun prev s =>
    if noWordBefore prev then
      ((eatLit ['p'] s).bind fun t =>
        if noWordAfter t then some t else none).map fun r => ([], r)
    else none

/-- The ordinal alternatives of clean_usfm_text line 98, in source
order.  No alternative is a prefix of another, so at most one can match
at a given position. -/
def dayOrdinals : List (List Char) :=
  [['F', 'i', 'r', 's', 't'], ['S', 'e', 'c', 'o', 'n', 'd'],
   ['T', 'h', 'i', 'r', 'd'], ['F', 'o', 'u', 'r', 't', 'h'],
   ['F', 'i', 'f', 't', 'h'], ['S', 'i', 'x', 't', 'h'],
   ['S', 'e', 'v', 'e', 'n', 't', 'h'], ['E', 'i', 'g', 'h', 't', 'h'],
   ['N', 'i', 'n', 't', 'h'], ['T', 'e', 'n', 't', 'h']]

/-- Try each alternative in order, returning the first that matches. -/
def eatFirstCI : List (List Char) → List Char → Option (List Char)
  | [], _ => none
  | alt :: alts, s =>
    match eatLitCI alt s with
    | some r => some r
    | none => eatFirstCI alts s

/-- Matcher for
r"\s+The\s+(First|...|Tenth)\s+Day\s*" with re.IGNORECASE
(clean_usfm_text line 98). -/
def matchDayHeading (s : List Char) : Option (List Char) :=
  (eatWs1 s).bind fun s => (eatLitCI ['t', 'h', 'e'] s).bind fun s =>
  (eatWs1 s).bind fun s => (eatFirstCI dayOrdinals s).bind fun s =>
  (eatWs1 s).bind fun s => (eatLitCI ['d', 'a', 'y'] s).map fun s =>
  s.dropWhile isWsC

/-- Step for r"\s+" with replacement " " (clean_usfm_text lines 101 and
103). -/
def wsRunStep : Option Char → List Char → Option (List Char × List Char) :=
  fun _ s => (eatWs1 s).map fun r => ([' '], r)

/-- The punctuation class of clean_usfm_text line 102. -/
def isPunctC (c : Char) : Bool :=
  c = ',' || c = '.' || c = ';' || c = ':' || c = '!' || c = '?'

/-- Step for r"\s+([,.;:!?])" replaced by the captured punctuation
character (clean_usfm_text line 102). -/
def wsPunctStep : Option Char → List Char → Option (List Char × List Char) :=
  fun _ s =>
    (eatWs1 s).bind fun t =>
    match t with
    | c :: rest => if isPunctC c then some ([c], rest) else none
    | [] => none

/-- The tail of clean_usfm_text (lines 104-110): strip, then unwrap one
layer of quotes when the text starts and ends with a double quote and
contains at least two quotes, stripping again. -/
def cleanFinish (l : List Char) : String :=
  if (pyStrip l).headD ' ' = '"' && (pyStrip l).getLastD ' ' = '"' &&
     2 ≤ (pyStrip l).count '"' then
    String.mk (pyStrip ((pyStrip l).drop 1).dropLast)
  else String.mk (pyStrip l)

/-- The substitution chain of clean_usfm_text (lines 45-103). -/
def cleanSubs (s : String) : List Char :=
  let t := s.data
  let t := pySub (delStep matchFootnoteFrFt) t       -- line 45
  let t := pySub (delStep matchFootnoteSimple) t     -- line 47
  let t := pySub (delStep matchColonRef) t           -- line 50
  let t := pySub (delStep matchPlusColonRef) t       -- line 51
  let t := pySub (delStep matchPlusRun) t            -- line 52
  let t := pySub (delStep matchBackslashRun) t       -- line 53
  let t := pySub (delStep matchRendered) t           -- line 55
  let t := pySub wordMarkerStep t                    -- line 74
  let t := pySub (delStep matchStrongAttr) t         -- line 77
  let t := pySub (delStep matchWh) t                 -- line 80
  let t := pySub (delStep matchPlusPlus) t           -- line 81
  let t := pySub (delStep matchHebrew) t             -- line 84
  let t := pySub (delStep matchBsControl) t          -- line 87
  let t := pySub pairBmsqStep t                      -- line 91
  let t := pySub bmsqDigitsStep t                    -- line 92
  let t := pySub liStep t                            -- line 93
  let t := pySub pmoStep t                           -- line 94
  let t := pySub pStep t                             -- line 95
  let t := pySub (delStep matchDayHeading) t         -- line 98
  let t := pySub wsRunStep t                         -- line 101
  let t := pySub wsPunctStep t                       -- line 102
  pySub wsRunStep t                                  -- line 103

/-- clean_usfm_text (convert_usfm_to_kjv_format.py lines 41-110): the
ordered chain of substitutions, then whitespace cleanup, strip, and the
final unwrap of a fully quote-wrapped text. -/
def clean_usfm_text (s : String) : String :=
  cleanFinish (cleanSubs s)

/-- preprocess_usfm_line (convert_usfm_to_kjv_format.py lines 112-119):
remove cross-references and footnotes. -/
def preprocess_usfm_line (s : String) : String :=
  let t := s.data
  let t := pySub (delStep matchXref) t               -- line 115
  let t := pySub (delStep matchFootnoteFrFt) t       -- line 117
  let t := pySub (delStep matchFootnoteSimple) t     -- line 118
  String.mk t

/-! ### USFM to canonical converter (convert_usfm_to_kjv_format.py) -/

/-- book_order (convert_usfm_to_kjv_format.py lines 12-20). -/
def book_order : List String :=
  ["GEN", "EXO", "LEV", "NUM", "DEU", "JOS", "JDG", "RUT", "1SA", "2SA",
   "1KI", "2KI", "1CH", "2CH", "EZR", "NEH", "EST", "JOB", "PSA", "PRO",
   "ECC", "SNG", "ISA", "JER", "LAM", "EZK", "DAN", "HOS", "JOL", "AMO",
   "OBA", "JON", "MIC", "NAM", "HAB", "ZEP", "HAG", "ZEC", "MAL",
   "MAT", "MRK", "LUK", "JHN", "ACT", "ROM", "1CO", "2CO", "GAL", "EPH",
   "PHP", "COL", "1TH", "2TH", "1TI", "2TI", "TIT", "PHM", "HEB", "JAS",
   "1PE", "2PE", "1JN", "2JN", "3JN", "JUD", "REV"]

/-- book_names (convert_usfm_to_kjv_format.py lines 22-39), in source
(dict insertion) order. -/
def book_names : List (String × String) :=
  [("GEN", "Genesis"), ("EXO", "Exodus"), ("LEV", "Leviticus"), ("NUM", "Numbers"),
   ("DEU", "Deuteronomy"), ("JOS", "Joshua"), ("JDG", "Judges"), ("RUT", "Ruth"),
   ("1SA", "1 Samuel"), ("2SA", "2 Samuel"), ("1KI", "1 Kings"), ("2KI", "2 Kings"),
   ("1CH", "1 Chronicles"), ("2CH", "2 Chronicles"), ("EZR", "Ezra"), ("NEH", "Nehemiah"),
   ("EST", "Esther"), ("JOB", "Job"), ("PSA", "Psalms"), ("PRO", "Proverbs"),
   ("ECC", "Ecclesiastes"), ("SNG", "Song of Solomon"), ("ISA", "Isaiah"), ("JER", "Jeremiah"),
   ("LAM", "Lamentations"), ("EZK", "Ezekiel"), ("DAN", "Daniel"), ("HOS", "Hosea"),
   ("JOL", "Joel"), ("AMO", "Amos"), ("OBA", "Obadiah"), ("JON", "Jonah"), ("MIC", "Micah"),
   ("NAM", "Nahum"), ("HAB", "Habakkuk"), ("ZEP", "Zephaniah"), ("HAG", "Haggai"),
   ("ZEC", "Zechariah"), ("MAL", "Malachi"), ("MAT", "Matthew"), ("MRK", "Mark"),
   ("LUK", "Luke"), ("JHN", "John"), ("ACT", "Acts"), ("ROM", "Romans"),
   ("1CO", "1 Corinthians"), ("2CO", "2 Corinthians"), ("GAL", "Galatians"), ("EPH", "Ephesians"),
   ("PHP", "Philippians"), ("COL", "Colossians"), ("1TH", "1 Thessalonians"), ("2TH", "2 Thessalonians"),
   ("1TI", "1 Timothy"), ("2TI", "2 Timothy"), ("TIT", "Titus"), ("PHM", "Philemon"),
   ("HEB", "Hebrews"), ("JAS", "James"), ("1PE", "1 Peter"), ("2PE", "2 Peter"),
   ("1JN", "1 John"), ("2JN", "2 John"), ("3JN", "3 John"), ("JUD", "Jude"), ("REV", "Revelation")]

/-- Stable insertion into a list sorted by le: place a before the first b
with le a b. -/
def insertLe (le : α → α → Bool) (a : α) : List α → List α
  | [] => [a]
  | b :: l => if le a b then a :: b :: l else b :: insertLe le a l

/-- Stable insertion sort (processing from the right, inserting before
the first element not smaller, which reproduces the order of Python's
stable sorted / list.sort for a total preorder le). -/
def sortLe (le : α → α → Bool) : List α → List α
  | [] => []
  | a :: l => insertLe le a (sortLe le l)

/-- Python's string < (lexicographic on code points). -/
def lexLt : List Char → List Char → Bool
  | [], [] => false
  | [], _ :: _ => true
  | _ :: _, [] => false
  | a :: as, b :: bs =>
    if a.toNat < b.toNat then true
    else if b.toNat < a.toNat then false
    else lexLt as bs

/-- The key comparison of parse_usfm_file's sort_key (lines 131-135):
tuples (-len(code), is_digit, code) compared lexicographically, where
is_digit is 1 when the code starts with a digit. -/
def code_sort_le (a b : String) : Bool :=
  if a.length = b.length then
    let da : Nat := if (a.data.headD ' ').isDigit then 1 else 0
    let db : Nat := if (b.data.headD ' ').isDigit then 1 else 0
    if da = db then !(lexLt b.data a.data) else decide (da < db)
  else decide (b.length < a.length)

/-- Numeric value of a digit run (the int() of a captured \d+ group). -/
def digitsVal (l : List Char) : Nat :=
  l.foldl (fun a c => a * 10 + (c.toNat - 48)) 0

/-- Split off a maximal nonempty leading digit run. -/
def takeDigits1 : List Char → Option (List Char × List Char)
  | [] => none
  | c :: rest =>
    if c.isDigit then some (c :: rest.takeWhile Char.isDigit, rest.dropWhile Char.isDigit)
    else none

/-- The prefix match re.match(r"\\c\s+(\d+)", line) (line 173): returns
the chapter number when it matches. -/
def matchChapterNum (l : List Char) : Option Nat :=
  (eatLit ['\\', 'c'] l).bind fun t => (eatWs1 t).bind fun t =>
  (takeDigits1 t).map fun p => digitsVal p.1

/-- The anchored verse pattern r"^\\v\s+(\d+)\s+(.*)$" (line 157):
returns the verse number and group 2 (the text after the maximal
whitespace run following the number). -/
def matchVerseLine (l : List Char) : Option (Nat × List Char)  :=
  (eatLit ['\\', 'v'] l).bind fun t => (eatWs1 t).bind fun t =>
  (takeDigits1 t).bind fun p =>
  match p.2 with
  | c :: rest => if isWsC c then some (digitsVal p.1, rest.dropWhile isWsC) else none
  | [] => none

/-- Parser state of parse_usfm_file (lines 149-154).  current_verses is
the insertion-ordered dict verse_num -> text. -/
structure UsfmState where
  chapters : List (Nat × List (Nat × String))
  curChapter : Option Nat
  curVerses : List (Nat × String)
  curVerseNum : Option Nat
  curVerseText : List String
deriving Repr

/-- Initial parser state. -/
def initUsfmState : UsfmState :=
  { chapters := [], curChapter := none, curVerses := [], curVerseNum := none,
    curVerseText := [] }

/-- Dict write current_verses[num] (lines 196-199 / 216-219): merge by
concatenation with a space when the key exists (keeping its position),
otherwise append the new key at the end (dict insertion order). -/
def mergeVerse (vs : List (Nat × String)) (n : Nat) (t : String) : List (Nat × String) :=
  if (vs.map Prod.fst).contains n then
    vs.map fun p => if p.1 = n then (p.1, p.2 ++ " " ++ t) else p
  else vs ++ [(n, t)]

/-- The save-previous-verse block (lines 191-199, repeated at 212-219):
join the accumulated raw lines with spaces, strip, clean; store only a
nonempty result. -/
def flushVerse (st : UsfmState) : List (Nat × String) :=
  match st.curVerseNum with
  | none => st.curVerses
  | some n =>
    if st.curVerseText.isEmpty then st.curVerses
    else if clean_usfm_text (pyStripS (joinSpaceS st.curVerseText)) = "" then st.curVerses
    else mergeVerse st.curVerses n (clean_usfm_text (pyStripS (joinSpaceS st.curVerseText)))

/-- Ordering of sorted(current_verses.items()): dict keys are unique, so
Python's tuple comparison is decided by the verse number. -/
def verseLe (a b : Nat × String) : Bool := decide (a.1 ≤ b.1)

/-- The save-previous-chapter block (lines 176-179, repeated at
221-223): sorted items of a nonempty current_verses are appended.  Note
the pending verse buffer is NOT flushed here, faithful to the source. -/
def chaptersAfterFlush (st : UsfmState) : List (Nat × List (Nat × String)) :=
  match st.curChapter with
  | none => st.chapters
  | some c =>
    if st.curVerses.isEmpty then st.chapters
    else st.chapters ++ [(c, sortLe verseLe st.curVerses)]

/-- The branch chain of the line loop of parse_usfm_file (lines
166-209), applied to the already preprocessed and rstripped line. -/
def usfmLineCore (st : UsfmState) (line : String) : UsfmState :=
  if pyStartsWith line "\\id" || pyStartsWith line "\\ide" || pyStartsWith line "\\h" ||
     pyStartsWith line "\\toc" || pyStartsWith line "\\mt" then st
  else if pyStartsWith line "\\c" then
    match matchChapterNum line.data with
    | some c =>
      { chapters := chaptersAfterFlush st, curChapter := some c, curVerses := [],
        curVerseNum := none, curVerseText := [] }
    | none => st
  else
    match matchVerseLine line.data with
    | some (n, g2) =>
      { st with
        curVerses := flushVerse st,
        curVerseNum := some n,
        curVerseText := if pyStrip g2 = [] then [] else [String.mk g2] }
    | none =>
      if st.curVerseNum.isSome && !pyStartsWith line "\\v" then
        { st with curVerseText := st.curVerseText ++ [line] }
      else st

/-- One iteration of the line loop of parse_usfm_file (lines 159-209):
rstrip, preprocess, rstrip again (lines 160-164), then the branches. -/
def usfmLine (st : UsfmState) (rawLine : String) : UsfmState :=
  usfmLineCore st (pyRstripS (preprocess_usfm_line (pyRstripS rawLine)))

/-- parse_usfm_file (lines 121-225) on a filename and the file's lines:
detect the book code in the filename (longest first, then non-digit
first, then alphabetical; all codes have length 3), run the line loop,
flush the last verse and chapter. -/
def parse_usfm_file (filename : String) (lines : List String) :
    Option String × List (Nat × List (Nat × String)) :=
  let fup := pyUpper filename
  match (sortLe code_sort_le (book_names.map Prod.fst)).find?
      (fun code => containsSub code fup) with
  | none => (none, [])
  | some code =>
    let bn := ((book_names.lookup code).getD "")
    let st := lines.foldl usfmLine initUsfmState
    let st := { st with curVerses := flushVerse st }
    (some bn, chaptersAfterFlush st)

/-- get_book_code (convert_usfm_directory lines 244-248): index in
book_order of the first code occurring in the upper-cased filename, 999
otherwise. -/
def get_book_code (filename : String) : Nat :=
  match book_order.findIdx? (fun code => containsSub code (pyUpper filename)) with
  | some i => i
  | none => 999

/-- First-occurrence deduplication with a seen accumulator, modelling
iteration order of set()/Counter construction from a list. -/
def dedupFirstAux (seen : List Nat) : List Nat → List Nat
  | [] => []
  | a :: l =>
    if seen.contains a then dedupFirstAux seen l
    else a :: dedupFirstAux (seen ++ [a]) l

/-- First-occurrence deduplication of a list. -/
def dedupFirst (l : List Nat) : List Nat := dedupFirstAux [] l

/-- The duplicate sanity check of convert_usfm_directory (lines
264-275): when the number of distinct verse numbers differs from the
total, emit one warning per number occurring more than once, in
first-occurrence order. -/
def chapterWarnings (bookName : String) (chapterNum : Nat) (nums : List Nat) :
    List String :=
  if (dedupFirst nums).length ≠ nums.length then
    ((dedupFirst nums).filter (fun v => 1 < nums.count v)).map fun v =>
      bookName ++ " Chapter " ++ toString chapterNum ++ ", Verse " ++ toString v ++
        ": " ++ toString (nums.count v) ++ " occurrences (merged)"
  else []

/-- Accumulator of convert_usfm_directory.  emitted is a ghost field
recording every (verse number, verse text) record appended as an output
line at line 279, used to state invariants about emitted verses. -/
structure UsfmDirState where
  output : List String
  warnings : List String
  processedBooks : List String
  emitted : List (Nat × String)
deriving Repr

/-- The per-chapter body of convert_usfm_directory's output loop (lines
263-280): the duplicate sanity check, the chapter header, one line per
verse of the re-sorted verse list, and a trailing blank line. -/
def usfmDirChapter (bn : String) (acc : UsfmDirState)
    (ch : Nat × List (Nat × String)) : UsfmDirState :=
  let nums := ch.2.map Prod.fst
  let sortedV := sortLe verseLe ch.2
  { acc with
    warnings := acc.warnings ++ chapterWarnings bn ch.1 nums,
    output := acc.output ++ ["Chapter " ++ toString ch.1] ++
      sortedV.map (fun p => toString p.1 ++ " " ++ p.2) ++ [""],
    emitted := acc.emitted ++ sortedV }

/-- The per-file body of convert_usfm_directory's main loop (lines
252-280). -/
def usfmDirFile (acc : UsfmDirState) (f : String × List String) : UsfmDirState :=
  match parse_usfm_file f.1 f.2 with
  | (none, _) => acc
  | (some bn, chapters) =>
    if chapters.isEmpty then acc
    else if acc.processedBooks.contains bn then acc
    else
      chapters.foldl (usfmDirChapter bn)
        { acc with processedBooks := acc.processedBooks ++ [bn],
                   output := acc.output ++ [bn] }

/-- convert_usfm_directory (lines 227-296) as a pure function from the
lexically sorted list of (filename, lines) pairs (the sorted glob of
lines 228-230) to the output lines plus warning list.  Front-matter
files are filtered out, files are stably sorted by get_book_code, and a
trailing blank output line is popped. -/
def convert_usfm_directory (files : List (String × List String)) : UsfmDirState :=
  let files := files.filter (fun f => !(pyStartsWith f.1 "00-"))
  let files := sortLe (fun a b => decide (get_book_code a.1 ≤ get_book_code b.1)) files
  let st := files.foldl usfmDirFile
    { output := [], warnings := [], processedBooks := [], emitted := [] }
  if st.output.getLast? = some "" then { st with output := st.output.dropLast }
  else st

/-! ### Gutenberg to canonical converters (convert_to_kjv_format.py and
convert_kjv.py).  The two scripts contain byte-identical copies of
book_mapping and write_verses; they are defined once here. -/

/-- book_mapping (convert_to_kjv_format.py lines 24-91 and convert_kjv.py
lines 5-72, identical). -/
def book_mapping : List (String × String) :=
  [("The First Book of Moses: Called Genesis", "Genesis"),
   ("The Second Book of Moses: Called Exodus", "Exodus"),
   ("The Third Book of Moses: Called Leviticus", "Leviticus"),
   ("The Fourth Book of Moses: Called Numbers", "Numbers"),
   ("The Fifth Book of Moses: Called Deuteronomy", "Deuteronomy"),
   ("The Book of Joshua", "Joshua"),
   ("The Book of Judges", "Judges"),
   ("The Book of Ruth", "Ruth"),
   ("The First Book of Samuel", "1 Samuel"),
   ("The Second Book of Samuel", "2 Samuel"),
   ("The First Book of the Kings", "1 Kings"),
   ("The Second Book of the Kings", "2 Kings"),
   ("The First Book of the Chronicles", "1 Chronicles"),
   ("The Second Book of the Chronicles", "2 Chronicles"),
   ("Ezra", "Ezra"),
   ("The Book of Nehemiah", "Nehemiah"),
   ("The Book of Esther", "Esther"),
   ("The Book of Job", "Job"),
   ("The Book of Psalms", "Psalms"),
   ("The Proverbs", "Proverbs"),
   ("Ecclesiastes", "Ecclesiastes"),
   ("The Song of Solomon", "Song of Solomon"),
   ("The Book of the Prophet Isaiah", "Isaiah"),
   ("The Book of the Prophet Jeremiah", "Jeremiah"),
   ("The Lamentations of Jeremiah", "Lamentations"),
   ("The Book of the Prophet Ezekiel", "Ezekiel"),
   ("The Book of Daniel", "Daniel"),
   ("Hosea", "Hosea"),
   ("Joel", "Joel"),
   ("Amos", "Amos"),
   ("Obadiah", "Obadiah"),
   ("Jonah", "Jonah"),
   ("Micah", "Micah"),
   ("Nahum", "Nahum"),
   ("Habakkuk", "Habakkuk"),
   ("Zephaniah", "Zephaniah"),
   ("Haggai", "Haggai"),
   ("Zechariah", "Zechariah"),
   ("Malachi", "Malachi"),
   ("The Gospel According to Saint Matthew", "Matthew"),
   ("The Gospel According to Saint Mark", "Mark"),
   ("The Gospel According to Saint Luke", "Luke"),
   ("The Gospel According to Saint John", "John"),
   ("The Acts of the Apostles", "Acts"),
   ("The Epistle of Paul the Apostle to the Romans", "Romans"),
   ("The First Epistle of Paul the Apostle to the Corinthians", "1 Corinthians"),
   ("The Second Epistle of Paul the Apostle to the Corinthians", "2 Corinthians"),
   ("The Epistle of Paul the Apostle to the Galatians", "Galatians"),
   ("The Epistle of Paul the Apostle to the Ephesians", "Ephesians"),
   ("The Epistle of Paul the Apostle to the Philippians", "Philippians"),
   ("The Epistle of Paul the Apostle to the Colossians", "Colossians"),
   ("The First Epistle of Paul the Apostle to the Thessalonians", "1 Thessalonians"),
   ("The Second Epistle of Paul the Apostle to the Thessalonians", "2 Thessalonians"),
   ("The First Epistle of Paul the Apostle to Timothy", "1 Timothy"),
   ("The Second Epistle of Paul the Apostle to Timothy", "2 Timothy"),
   ("The Epistle of Paul the Apostle to Titus", "Titus"),
   ("The Epistle of Paul the Apostle to Philemon", "Philemon"),
   ("The Epistle of Paul the Apostle to the Hebrews", "Hebrews"),
   ("The General Epistle of James", "James"),
   ("The First Epistle General of Peter", "1 Peter"),
   ("The Second General Epistle of Peter", "2 Peter"),
   ("The First Epistle General of John", "1 John"),
   ("The Second Epistle General of John", "2 John"),
   ("The Third Epistle General of John", "3 John"),
   ("The General Epistle of Jude", "Jude"),
   ("The Revelation of Saint John the Divine", "Revelation")]

/-- A verse record as built by both Gutenberg converters: the dict
{'chapter': ..., 'verse': ..., 'text': ...}.  current_chapter can in
principle still be None when the record is built, so the chapter field
keeps the Option. -/
structure GRec where
  chapter : Option Nat
  verse : Nat
  text : String
deriving Repr, DecidableEq

/-- Python str() of the chapter value (None prints as "None"). -/
def optNatStr : Option Nat → String
  | none => "None"
  | some n => toString n

/-- The output line of one verse record (write_verses lines 191-192):
the verse number, a space, and the whitespace-normalized text. -/
def verseLine (r : GRec) : String :=
  toString r.verse ++ " " ++ pyNormalizeS r.text

/-- Loop of write_verses (convert_to_kjv_format.py lines 179-192 and
convert_kjv.py lines 195-208, identical): cur is the local
current_chapter, initially None.  A chapter header (preceded by a blank
line except at the start) is emitted whenever the record's chapter
differs from cur. -/
def writeVersesAux (cur : Option Nat) : List GRec → List String
  | [] => []
  | r :: rest =>
    if r.chapter ≠ cur then
      (if cur.isSome then [""] else []) ++
        ("Chapter " ++ optNatStr r.chapter) :: verseLine r :: writeVersesAux r.chapter rest
    else verseLine r :: writeVersesAux cur rest

/-- write_verses: the lines appended to output_lines for a verse list. -/
def write_verses (verses : List GRec) : List String :=
  writeVersesAux none verses

/-- The pending-verse flush guard shared by both converters (e.g.
convert_to_kjv_format.py lines 109-116): a record is appended only when
a current verse exists and the joined, stripped text is nonempty. -/
def pendingOf (ch : Option Nat) (v : Option Nat) (txts : List String) : Option GRec :=
  match v with
  | none => none
  | some vn =>
    if pyStripS (joinSpaceS txts) = "" then none
    else some { chapter := ch, verse := vn, text := pyStripS (joinSpaceS txts) }

/-- Leftmost match of re.search(r"(\d+):(\d+)", line): returns the two
numbers and the suffix after the match.  At each digit position the
greedy \d+ takes the maximal run; backtracking inside a run cannot place
the colon, so on failure the scan advances one character. -/
def findRef : List Char → Option (Nat × Nat × List Char)
  | [] => none
  | c :: rest =>
    match (takeDigits1 (c :: rest)).bind (fun p =>
        (eatLit [':'] p.2).bind fun t =>
        (takeDigits1 t).map fun q => (digitsVal p.1, digitsVal q.1, q.2)) with
    | some r => some r
    | none => findRef rest

/-- State of convert_gutenberg_to_kjv_format (lines 15-22).  emitted is
a ghost field recording every record ever appended to verses, so that
invariants about emitted verse records can be stated even though verses
is cleared after each write_verses call. -/
structure GutState where
  output : List String
  book : Option String
  verses : List GRec
  curText : List String
  chapter : Option Nat
  verse : Option Nat
  genesis : Nat
  started : Bool
  emitted : List GRec
deriving Repr

/-- Initial state of convert_gutenberg_to_kjv_format. -/
def initGutState : GutState :=
  { output := [], book := none, verses := [], curText := [], chapter := none,
    verse := none, genesis := 0, started := false, emitted := [] }

/-- The branch chain of the line loop of convert_gutenberg_to_kjv_format
(lines 96-158), applied to the already stripped line. -/
def gutLineCore (st : GutState) (ls : String) : GutState :=
  if containsSub "*** START" ls || containsSub "*** END" ls then st
  else if containsSub "The First Book of Moses: Called Genesis" ls then
    { st with genesis := st.genesis + 1, started := st.started || (st.genesis + 1 == 2) }
  else if !st.started then st
  else
    match book_mapping.lookup ls with
    | some bname =>
      let pr := pendingOf st.chapter st.verse st.curText
      let vs := st.verses ++ pr.toList
      let out1 := if vs.isEmpty then st.output else st.output ++ write_verses vs
      let out2 := if st.book.isSome then out1 ++ [""] else out1
      { st with
        output := out2 ++ [bname], book := some bname, verses := [],
        curText := [], chapter := none, verse := none,
        emitted := st.emitted ++ pr.toList }
    | none =>
      if ls = "" then
        if st.curText.isEmpty then st else { st with curText := st.curText ++ [""] }
      else
        match findRef ls.data with
        | some (cnum, vnum, after) =>
          let pr := pendingOf st.chapter st.verse st.curText
          let t := pyStrip after
          { st with
            verses := st.verses ++ pr.toList,
            emitted := st.emitted ++ pr.toList,
            chapter := some cnum, verse := some vnum,
            curText := if t.isEmpty then [] else [String.mk t] }
        | none =>
          if st.verse.isSome then { st with curText := st.curText ++ [ls] } else st

/-- One iteration of the line loop of convert_gutenberg_to_kjv_format
(lines 93-158): strip the raw line, then the branches. -/
def gutLine (st : GutState) (rawLine : String) : GutState :=
  gutLineCore st (pyStripS rawLine)

/-- convert_gutenberg_to_kjv_format (convert_to_kjv_format.py lines
11-177) as a pure function from the input lines to the final state
(output holds the written lines). -/
def convert_gutenberg_to_kjv_format (lines : List String) : GutState :=
  let st := lines.foldl gutLine initGutState
  let pr := pendingOf st.chapter st.verse st.curText
  let vs := st.verses ++ pr.toList
  { st with
    output := if vs.isEmpty then st.output else st.output ++ write_verses vs,
    verses := vs,
    emitted := st.emitted ++ pr.toList }

/-- A match of verse_ref_pattern with its span: (start, end, chapter,
verse), as used by convert_kjv's finditer loop for slicing. -/
structure RefMatch where
  start : Nat
  stop : Nat
  ch : Nat
  vs : Nat
deriving Repr

/-- All non-overlapping matches of r"(\d+):(\d+)" from left to right
with their absolute positions (re.finditer).  Fuel-structural; every
step consumes at least one character. -/
def findRefsFromF : Nat → Nat → List Char → List RefMatch
  | _, _, [] => []
  | 0, _, _ => []
  | fuel + 1, pos, c :: rest =>
    match (takeDigits1 (c :: rest)).bind (fun p =>
        (eatLit [':'] p.2).bind fun t =>
        (takeDigits1 t).map fun q => (digitsVal p.1, digitsVal q.1, q.2)) with
    | some (cn, vn, remaining) =>
      if remaining.length ≤ rest.length then
        let len := rest.length + 1 - remaining.length
        { start := pos, stop := pos + len, ch := cn, vs := vn } ::
          findRefsFromF fuel (pos + len) remaining
      else findRefsFromF fuel (pos + 1) rest
    | none => findRefsFromF fuel (pos + 1) rest

/-- finditer over a whole line. -/
def findRefs (l : List Char) : List RefMatch := findRefsFromF l.length 0 l

/-- Python slice l[a:b]. -/
def slice (l : List Char) (a b : Nat) : List Char := (l.take b).drop a

/-- The stripped text following a match up to the next match's start, or
to the end of the line when the match is the last one: the computation
line_stripped[match.end():next.start()].strip() /
line_stripped[match.end():].strip() shared by both branches of
convert_kjv's match loop (lines 144-149 and 159-163). -/
def kjvBetween (l : List Char) (m : RefMatch) (next? : Option RefMatch) : List Char :=
  match next? with
  | some nxt => pyStrip (slice l m.stop nxt.start)
  | none => pyStrip (l.drop m.stop)

/-- State of convert_kjv (convert_kjv.py lines 80-88), with the same
ghost emitted field as the Gutenberg converter. -/
structure KjvState where
  output : List String
  skip : Bool
  book : Option String
  verses : List GRec
  curText : List String
  chapter : Option Nat
  verse : Option Nat
  emitted : List GRec
deriving Repr

/-- Initial state of convert_kjv (skip_mode starts True). -/
def initKjvState : KjvState :=
  { output := [], skip := true, book := none, verses := [], curText := [],
    chapter := none, verse := none, emitted := [] }

/-- Append the pending verse record, if any (convert_kjv.py lines
135-142 and 165-172). -/
def kjvSavePending (st : KjvState) : KjvState :=
  let pr := pendingOf st.chapter st.verse st.curText
  { st with verses := st.verses ++ pr.toList, emitted := st.emitted ++ pr.toList }

/-- The j = 0 branch of convert_kjv's match loop (lines 134-153). -/
def kjvFirstMatch (line : List Char) (st : KjvState) (m : RefMatch)
    (next? : Option RefMatch) : KjvState :=
  let st := kjvSavePending st
  { st with chapter := some m.ch, verse := some m.vs,
            curText := if (kjvBetween line m next?).isEmpty then []
                       else [String.mk (kjvBetween line m next?)] }

/-- A j > 0 branch of convert_kjv's match loop (lines 154-176): the text
between the previous match and this one is appended to the current
verse, the current verse is saved, and this match's verse starts with
the text up to the next match (or the end of line). -/
def kjvLaterMatch (line : List Char) (st : KjvState) (prev m : RefMatch)
    (next? : Option RefMatch) : KjvState :=
  let tb := pyStrip (slice line prev.stop m.start)
  let st := if tb.isEmpty then st else { st with curText := st.curText ++ [String.mk tb] }
  let st := kjvSavePending st
  { st with chapter := some m.ch, verse := some m.vs,
            curText := if (kjvBetween line m next?).isEmpty then []
                       else [String.mk (kjvBetween line m next?)] }

/-- The j > 0 iterations, processing each remaining match with its
predecessor and successor. -/
def kjvMatchLoop (line : List Char) (st : KjvState) (prev : RefMatch) :
    List RefMatch → KjvState
  | [] => st
  | m :: rest => kjvMatchLoop line (kjvLaterMatch line st prev m rest.head?) m rest

/-- The non-skip body of convert_kjv's line loop (lines 105-176). -/
def kjvMain (st : KjvState) (ls : String) : KjvState :=
  match book_mapping.lookup ls with
  | some bname =>
    let out1 := if st.verses.isEmpty then st.output else st.output ++ write_verses st.verses
    let out2 := if st.book.isSome then out1 ++ [""] else out1
    { st with
      output := out2 ++ [bname], book := some bname, verses := [],
      curText := [], chapter := none, verse := none }
  | none =>
    if ls = "" then
      if st.curText.isEmpty then st else { st with curText := st.curText ++ [""] }
    else
      match findRefs ls.data with
      | [] =>
        if st.curText.isEmpty then st else { st with curText := st.curText ++ [ls] }
      | m :: rest => kjvMatchLoop ls.data (kjvFirstMatch ls.data st m rest.head?) m rest

/-- One iteration of convert_kjv's line loop (lines 90-176), including
the skip_mode logic of lines 96-103. -/
def kjvLine (st : KjvState) (rawLine : String) : KjvState :=
  let ls := pyStripS rawLine
  if containsSub "*** START" ls || containsSub "*** END" ls then st
  else if st.skip then
    if containsSub "The Old Testament" ls || containsSub "The New Testament" ls then st
    else if book_mapping.any (fun b => containsSub b.1 ls) then
      kjvMain { st with skip := false } ls
    else st
  else kjvMain st ls

/-- convert_kjv (convert_kjv.py lines 76-193) as a pure function from
the content's lines (content.split of line 80) to the final state. -/
def convert_kjv (lines : List String) : KjvState :=
  let st := lines.foldl kjvLine initKjvState
  let st := kjvSavePending st
  { st with
    output := if st.verses.isEmpty then st.output else st.output ++ write_verses st.verses }

/-! ### Verse patcher (fix_incomplete_verses.py) -/

/-- Python int() on a string, ASCII fragment: optional surrounding
whitespace, optional sign, then digits with single underscores allowed
between digits. -/
def pyIntDigits : Int → List Char → Option Int
  | acc, [] => some acc
  | acc, '_' :: rest =>
    match rest with
    | d :: rest => if d.isDigit then pyIntDigits (acc * 10 + (d.toNat - 48)) rest else none
    | [] => none
  | acc, d :: rest =>
    if d.isDigit then pyIntDigits (acc * 10 + (d.toNat - 48)) rest else none

/-- Python int() applied to a nonempty token: the first character after
the optional sign must be a digit. -/
def pyIntStart : List Char → Option Int
  | [] => none
  | c :: rest => if c.isDigit then pyIntDigits (c.toNat - 48 : Nat) rest else none

/-- Python int(s) returning None in place of ValueError. -/
def pyInt? (s : String) : Option Int :=
  match pyStrip s.data with
  | '+' :: rest => pyIntStart rest
  | '-' :: rest => (pyIntStart rest).map (fun n => -n)
  | l => pyIntStart l

/-- verse_fixes (fix_incomplete_verses.py lines 7-64), in source order.
The source dict literal lists the key ("Nehemiah", 12, 4) twice with the
same value, so first-match lookup and Python's last-write dict agree. -/
def verse_fixes : List ((String × Int × Int) × String) :=
  [(("Ephesians", 4, 21), "If so be that ye have heard him, and have been taught by him, as the truth is in Jesus:"),
   (("Nehemiah", 12, 4), "Iddo, Ginnetho, Abijah,"),
   (("Ephesians", 4, 23), "And be renewed in the spirit of your mind;"),
   (("Ephesians", 4, 2), "With all lowliness and meekness, with longsuffering, forbearing one another in love;"),
   (("Ephesians", 1, 8), "Wherein he hath abounded toward us in all wisdom and prudence;"),
   (("Ephesians", 3, 11), "According to the eternal purpose which he purposed in Christ Jesus our Lord:"),
   (("Ephesians", 6, 15), "And your feet shod with the preparation of the gospel of peace;"),
   (("Ephesians", 6, 7), "With good will doing service, as to the Lord, and not to men:"),
   (("Nehemiah", 12, 4), "Iddo, Ginnetho, Abijah,"),
   (("Nehemiah", 10, 16), "Adonijah, Bigvai, Adin,"),
   (("Nehemiah", 10, 17), "Ater, Hizkijah, Azzur,"),
   (("Nehemiah", 10, 11), "Micha, Rehob, Hashabiah,"),
   (("Nehemiah", 10, 12), "Zaccur, Sherebiah, Shebaniah,"),
   (("Nehemiah", 10, 39), "And we will not forsake the house of our God."),
   (("Nehemiah", 10, 40), "Machnadebai, Shashai, Sharai,"),
   (("Acts", 16, 30), "And brought them out, and said, Sirs, what must I do to be saved?"),
   (("Acts", 2, 8), "And how hear we every man in our own tongue, wherein we were born?"),
   (("Acts", 23, 4), "And they that stood by said, Revilest thou God's high priest?"),
   (("Colossians", 3, 4), "When Christ, who is our life, shall appear, then shall ye also appear with him in glory."),
   (("Colossians", 6, 2), "Timothy my workfellow, and Lucius, and Jason, and Sosipater, my kinsmen, salute you."),
   (("Deuteronomy", 1, 5), "On this side Jordan, in the land of Moab, began Moses to declare this law, saying,"),
   (("Ecclesiastes", 7, 17), "Be not over much wicked, neither be thou foolish: why shouldest thou die before thy time?"),
   (("Esther", 9, 8), "And Poratha, and Adalia, and Aridatha,"),
   (("Exodus", 1, 3), "Issachar, Zebulun, and Benjamin,"),
   (("Exodus", 35, 18), "The pins of the tabernacle, and the pins of the court, and their cords,"),
   (("Ezekiel", 16, 2), "Son of man, cause Jerusalem to know her abominations,"),
   (("Ezekiel", 17, 2), "Son of man, put forth a riddle, and speak a parable unto the house of Israel;"),
   (("Ezekiel", 20, 19), "I am the LORD your God; walk in my statutes, and keep my judgments, and do them;"),
   (("Ezekiel", 23, 2), "Son of man, there were two women, the daughters of one mother:"),
   (("Ezekiel", 24, 20), "Then I answered them, The word of the LORD came unto me, saying,"),
   (("Ezekiel", 25, 2), "Son of man, set thy face against the Ammonites, and prophesy against them;"),
   (("Ezekiel", 27, 2), "Now, thou son of man, take up a lamentation for Tyrus;"),
   (("Ezekiel", 28, 21), "Son of man, set thy face against Zidon, and prophesy against it,"),
   (("Ezekiel", 34, 9), "Therefore, O ye shepherds, hear the word of the LORD;"),
   (("Ezekiel", 35, 2), "Son of man, set thy face against mount Seir, and prophesy against it,"),
   (("Ezra", 10, 35), "Benaiah, Bedeiah, Chelluh,"),
   (("Ezra", 10, 36), "Vaniah, Meremoth, Eliashib,"),
   (("Ezra", 10, 37), "Mattaniah, Mattenai, and Jaasau,"),
   (("Ezra", 10, 38), "And Bani, and Binnui, Shimei,"),
   (("Ezra", 2, 45), "The children of Lebanah, the children of Hagabah, the children of Akkub,"),
   (("Ezra", 2, 46), "The children of Hagab, the children of Shalmai, the children of Hanan,"),
   (("Ezra", 2, 51), "The children of Bakbuk, the children of Hakupha, the children of Harhur,"),
   (("Ezra", 2, 52), "The children of Bazluth, the children of Mehida, the children of Harsha,"),
   (("Ezra", 2, 56), "The children of Jaalah, the children of Darkon, the children of Giddel,"),
   (("Ezra", 7, 3), "The son of Amariah, the son of Azariah, the son of Meraioth,"),
   (("Ezra", 7, 4), "The son of Zerahiah, the son of Uzzi, the son of Bukki,"),
   (("Galatians", 1, 2), "And all the brethren which are with me, unto the churches of Galatia:"),
   (("Galatians", 2, 15), "We who are Jews by nature, and not sinners of the Gentiles,"),
   (("Genesis", 10, 16), "And the Jebusite, and the Amorite, and the Girgasite,"),
   (("Genesis", 10, 17), "And the Hivite, and the Arkite, and the Sinite,"),
   (("Genesis", 10, 28), "And Obal, and Abimael, and Sheba,"),
   (("Genesis", 15, 19), "The Kenites, and the Kenizzites, and the Kadmonites,"),
   (("Genesis", 15, 20), "And the Hittites, and the Perizzites, and the Rephaims,"),
   (("Genesis", 17, 18), "And Abraham said unto God, O that Ishmael might live before thee!"),
   (("Genesis", 26, 6), "And Isaac dwelt in Gerar:"),
   (("Genesis", 28, 8), "And Esau seeing that the daughters of Canaan pleased not Isaac his father;")]

/-- get_complete_verse_text (fix_incomplete_verses.py lines 6-66):
lookup in verse_fixes; a None book or chapter can never equal a key. -/
def get_complete_verse_text (book : Option String) (chapter : Option Int)
    (verse : Int) : Option String :=
  match book, chapter with
  | some b, some c => verse_fixes.lookup (b, c, verse)
  | _, _ => none

/-- The book name list inside fix_incomplete_verses (lines 89-102). -/
def fix_book_names : List String :=
  ["Genesis", "Exodus", "Leviticus", "Numbers", "Deuteronomy",
   "Joshua", "Judges", "Ruth", "1 Samuel", "2 Samuel", "1 Kings", "2 Kings",
   "1 Chronicles", "2 Chronicles", "Ezra", "Nehemiah", "Esther", "Job",
   "Psalm", "Psalms", "Proverbs", "Ecclesiastes", "Song of Solomon", "Song of Songs",
   "Isaiah", "Jeremiah", "Lamentations", "Ezekiel", "Daniel", "Hosea", "Joel",
   "Amos", "Obadiah", "Jonah", "Micah", "Nahum", "Habakkuk", "Zephaniah",
   "Haggai", "Zechariah", "Malachi",
   "Matthew", "Mark", "Luke", "John", "Acts", "Romans", "1 Corinthians",
   "2 Corinthians", "Galatians", "Ephesians", "Philippians", "Colossians",
   "1 Thessalonians", "2 Thessalonians", "1 Timothy", "2 Timothy", "Titus",
   "Philemon", "Hebrews", "James", "1 Peter", "2 Peter", "1 John", "2 John",
   "3 John", "Jude", "Revelation"]

/-- Tracking state of fix_incomplete_verses: current_book and
current_chapter (lines 72-73). -/
structure FixState where
  book : Option String
  chapter : Option Int
deriving Repr, DecidableEq

/-- Python str.split(None, 1) on an already stripped nonempty string:
the first whitespace-free token and, when nonempty, the remainder after
the first whitespace run. -/
def pySplitN1 (l : List Char) : List (List Char) :=
  let tok := l.takeWhile (fun c => !isWsC c)
  let r := (l.dropWhile (fun c => !isWsC c)).dropWhile isWsC
  if r.isEmpty then [tok] else [tok, r]

/-- The current_chapter update of the Chapter branch (lines 110-114):
int(stripped.split()[1]) with both IndexError and ValueError swallowed
by the bare except, leaving the old value. -/
def fixChapterUpd (old : Option Int) (stripped : String) : Option Int :=
  match (pySplit stripped.data)[1]? with
  | some w =>
    match pyInt? (String.mk w) with
    | some n => some n
    | none => old                                                     -- bare except: pass
  | none => old                                                       -- IndexError: pass

/-- The whiteness condition of line 128: len(verse_text) < 30 or
(verse_text.endswith((";", ",", ":")) and not verse_text.endswith(".")). -/
def fixShortCond (verse_text : String) : Prop :=
  verse_text.length < 30 ∨
    ((verse_text.data.getLast? = some ';' ∨ verse_text.data.getLast? = some ',' ∨
      verse_text.data.getLast? = some ':') ∧
     ¬(verse_text.data.getLast? = some '.'))

instance (verse_text : String) : Decidable (fixShortCond verse_text) := by
  unfold fixShortCond; infer_instance

/-- The digit branch of the line loop (lines 119-135): parse the first
token as the verse number; on ValueError pass the line through; else
consult the fix table and the shortness condition. -/
def fixVerse (st : FixState) (line stripped : String) : FixState × String :=
  match pyInt? (String.mk ((pySplitN1 stripped.data).headD [])) with
  | none => (st, line)                                                -- ValueError: pass
  | some n =>
    match get_complete_verse_text st.book st.chapter n with
    | none => (st, line)
    | some ct =>
      if fixShortCond (String.mk (((pySplitN1 stripped.data)[1]?).getD [])) then
        (st, toString n ++ " " ++ ct ++ "\n")
      else (st, line)

/-- The branch chain of the line loop of fix_incomplete_verses (lines
79-138) applied to a line and its stripped form. -/
def fixStepCore (st : FixState) (line stripped : String) : FixState × String :=
  if stripped = "" then (st, line)                                    -- lines 83-86
  else if !pyStartsWith stripped "Chapter" &&
          !((stripped.data.take 3).any Char.isDigit) &&
          fix_book_names.contains stripped then                       -- lines 88-108
    ({ book := some stripped, chapter := none }, line)
  else if pyStartsWith stripped "Chapter " then                       -- lines 110-117
    ({ st with chapter := fixChapterUpd st.chapter stripped }, line)
  else if (stripped.data.headD ' ').isDigit then                      -- lines 119-135
    fixVerse st line stripped
  else (st, line)                                                     -- line 137

/-- One iteration of the line loop of fix_incomplete_verses (lines
79-138): returns the updated (book, chapter) state and the single line
appended to the output for this input line. -/
def fixStep (st : FixState) (line : String) : FixState × String :=
  fixStepCore st line (pyStripS line)

/-- The full line loop: one output line per input line, threading the
(book, chapter) state. -/
def fixLines (st : FixState) : List String → List String
  | [] => []
  | l :: ls =>
    let p := fixStep st l
    p.2 :: fixLines p.1 ls

/-- fix_incomplete_verses (lines 68-143) as a pure function from the
input lines (with their line terminators, as readlines yields them) to
the output lines passed to writelines. -/
def fix_incomplete_verses (lines : List String) : List String :=
  fixLines { book := none, chapter := none } lines

/-! ### JSON to HTML batch conversion (convert_kjv_json_to_html.py) -/

/-- Models the per-file loop of convert_all_kjv_json_to_html (lines
89-109).  The external work of the try block (json.load of the file,
adjacent-chapter probing, template rendering, writing the .html file) is
abstracted by pairing each input file's stem with the outcome that the
try-block body would produce for it: ok html, or error e when the body
raises an exception with message e.  chapter_num = int(json_file.stem)
at line 92 runs OUTSIDE the try/except, so a stem that int() rejects
raises an uncaught ValueError that aborts the whole batch; an exception
inside the try is caught, an error line is recorded, and the loop
continues with the next file.  The result is (converted html files with
their chapter numbers, error lines printed, converted count). -/
def convert_all_kjv_json_to_html (files : List (String × Except String String)) :
    Except String (List (Int × String) × List String × Nat) :=
  match files with
  | [] => Except.ok ([], [], 0)
  | (stem, res) :: rest =>
    match pyInt? stem with
    | none =>
      Except.error ("ValueError: invalid literal for int() with base 10: " ++ stem)
    | some n =>
      (convert_all_kjv_json_to_html rest).map fun r =>
        match res with
        | Except.ok html => ((n, html) :: r.1, r.2.1, r.2.2 + 1)
        | Except.error e =>
          (r.1, ("Error converting " ++ stem ++ ".json: " ++ e) :: r.2.1, r.2.2)

/-! ### Specification-side definitions used to state the universal
theorems -/

/-- Group a verse list into maximal runs of consecutive records with the
same chapter value. -/
def chunkByChapter : List GRec → List (Option Nat × List GRec)
  | [] => []
  | r :: rest =>
    match chunkByChapter rest with
    | [] => [(r.chapter, [r])]
    | (c, run) :: out =>
      if r.chapter = c then (c, r :: run) :: out
      else (r.chapter, [r]) :: (c, run) :: out

/-- Spec rendering of one chapter run: exactly one header line followed
by the run's verse lines. -/
def renderChunk (p : Option Nat × List GRec) : List String :=
  ("Chapter " ++ optNatStr p.1) :: p.2.map verseLine

/-- Join rendered runs with a single blank line between consecutive
runs. -/
def joinBlank : List (List String) → List String
  | [] => []
  | [x] => x
  | x :: y :: rest => x ++ "" :: joinBlank (y :: rest)

/-- Rendering of the chunks after the first: each preceded by one blank
line. -/
def renderRest : List (Option Nat × List GRec) → List String
  | [] => []
  | p :: out => "" :: (renderChunk p ++ renderRest out)

/-- Chunk-level description of writeVersesAux: the first chunk continues
the current chapter (no header) when its chapter equals cur, otherwise
it is rendered with a header, preceded by a blank line when cur is
set; all further chunks are rendered with a preceding blank line. -/
def specAux (cur : Option Nat) : List (Option Nat × List GRec) → List String
  | [] => []
  | (c, run) :: out =>
    if c = cur then run.map verseLine ++ renderRest out
    else (if cur.isSome then [""] else []) ++ renderChunk (c, run) ++ renderRest out

/-- The state of convert_kjv's match loop while a match m is the current
verse: chapter and verse number come from m, and the pending text buffer
is the (possibly empty) stripped span from m's end to the next match's
start (or to the end of the line after the last match). -/
def kjvCursor (l : List Char) (st : KjvState) (m : RefMatch)
    (next? : Option RefMatch) : KjvState :=
  { st with chapter := some m.ch, verse := some m.vs,
            curText := if (kjvBetween l m next?).isEmpty then []
                       else [String.mk (kjvBetween l m next?)] }

/-- The verse record convert_kjv saves for a match m that is followed by
a further match nxt on the same line: nothing when the stripped span
between the two references is empty, and otherwise a record for
(m.ch, m.vs) whose text is exactly that span, a space, and the same
span again (the loop appends the identical slice twice). -/
def kjvSplitRec (l : List Char) (m nxt : RefMatch) : Option GRec :=
  if (pyStrip (slice l m.stop nxt.start)).isEmpty then none
  else some { chapter := some m.ch, verse := m.vs,
              text := String.mk (pyStrip (slice l m.stop nxt.start) ++
                ' ' :: pyStrip (slice l m.stop nxt.start)) }

/-- The verse records convert_kjv saves while walking a line's match
list: one (possibly dropped) record per adjacent pair of references. -/
def kjvSplitRecs (l : List Char) : RefMatch → List RefMatch → List GRec
  | _, [] => []
  | m, nxt :: rest => (kjvSplitRec l m nxt).toList ++ kjvSplitRecs l nxt rest

/-- The last match of a nonempty match list, written as a recursion over
the current match and the remaining matches. -/
def lastMatch : RefMatch → List RefMatch → RefMatch
  | m, [] => m
  | _, n :: ms => lastMatch n ms

/-- The HTML files a fully successful-stem batch writes: one per ok
outcome, keyed by the stem's numeric value. -/
def jsonOks (files : List (String × Except String String)) : List (Int × String) :=
  files.filterMap fun f =>
    match pyInt? f.1, f.2 with
    | some n, Except.ok h => some (n, h)
    | _, _ => none

/-- The error lines a batch prints: one per error outcome. -/
def jsonErrs (files : List (String × Except String String)) : List String :=
  files.filterMap fun f =>
    match f.2 with
    | Except.error e => some ("Error converting " ++ f.1 ++ ".json: " ++ e)
    | _ => none

/-- The (book, chapter) tracking state of the verse patcher before
processing line i: the fold of the state step over the first i lines. -/
def fixStateAt (st : FixState) (ls : List String) (i : Nat) : FixState :=
  (ls.take i).foldl (fun s l => (fixStep s l).1) st

/-- A string containing at least one non-whitespace character. -/
def hasNonWs (s : String) : Bool :=
  s.data.any (fun c => !isWsC c)

/-- Well-formedness of one parsed chapter: verse numbers are distinct
and every stored text contains a non-whitespace character. -/
def ChapterOk (ch : Nat × List (Nat × String)) : Prop :=
  (ch.2.map Prod.fst).Nodup ∧ ∀ p ∈ ch.2, (p.2.data.any (fun c => !isWsC c)) = true

/-- Invariant of the USFM parser state: the current dict has distinct
keys and non-blank texts, and every flushed chapter is well formed. -/
def ParseInv (st : UsfmState) : Prop :=
  (st.curVerses.map Prod.fst).Nodup ∧
  (∀ p ∈ st.curVerses, (p.2.data.any (fun c => !isWsC c)) = true) ∧
  ∀ ch ∈ st.chapters, ChapterOk ch

/-- Invariant of the Gutenberg converter state: every pending and every
ghost-recorded verse record has a non-blank text. -/
def GutInv (st : GutState) : Prop :=
  (∀ r ∈ st.verses, (r.text.data.any (fun c => !isWsC c)) = true) ∧
  ∀ r ∈ st.emitted, (r.text.data.any (fun c => !isWsC c)) = true

/-- The verse-number token of a patcher input line: the first
whitespace-separated token of the stripped line. -/
def fixTok (line : String) : String :=
  String.mk ((pySplitN1 (pyStripS line).data).headD [])

/-- The existing verse text of a patcher input line: everything after
the first token. -/
def fixText (line : String) : String :=
  String.mk ((pySplitN1 (pyStripS line).data)[1]?.getD [])

/-- The condition under which the verse patcher replaces a line, and the
replacement it then emits: the stripped line starts with a digit, its
first token parses as the integer n, (current book, current chapter, n)
is a key of the fix table, the recorded text is shorter than 30
characters or ends with a semicolon, comma or colon, and the output is
the patched line built from n and the table text. -/
def FixReplaced (st : FixState) (line out : String) : Prop :=
  ∃ n ct,
    ((pyStripS line).data.headD ' ').isDigit = true ∧
    pyInt? (fixTok line) = some n ∧
    get_complete_verse_text st.book st.chapter n = some ct ∧
    ((fixText line).length < 30 ∨ (fixText line).data.getLast? = some ';' ∨
      (fixText line).data.getLast? = some ',' ∨ (fixText line).data.getLast? = some ':') ∧
    out = toString n ++ " " ++ ct ++ "\n"

/-! ### Concrete inputs used by the claim theorems -/

/-- The Gutenberg Genesis title, whose second occurrence starts the
content in convert_gutenberg_to_kjv_format. -/
def genesisTitle : String := "The First Book of Moses: Called Genesis"

/-- A one-chapter USFM file whose only verse line is the spec's
end-to-end example. -/
def c4UsfmLines : List String :=
  ["\\c 1\n", "\\v 1 In the beginning|strong=\"H7225\" God created...\n"]

/-- A USFM directory with one Genesis file in which verse 3 occurs twice
in chapter 1. -/
def c2UsfmFiles : List (String × List String) :=
  [("01GENBSB.usfm", ["\\c 1\n", "\\v 3 aaa\n", "\\v 3 ddd\n"])]

/-- A USFM directory with one Genesis file containing two \c 1 markers
carrying the same chapter number. -/
def c5UsfmFiles : List (String × List String) :=
  [("01GENBSB.usfm",
    ["\\c 1\n", "\\v 1 aaa\n", "\\v 2 xxx\n", "\\c 1\n", "\\v 3 ccc\n", "\\v 4 ddd\n"])]

/-- A USFM directory with a Galatians file and a Colossians file whose
name contains the digit 2 right before "CO" (the filename shape the
source's own comment discusses, line 129). -/
def c7UsfmFiles : List (String × List String) :=
  [("48GALBSB.usfm", ["\\c 1\n", "\\v 1 ddd\n"]),
   ("52COLBSB.usfm", ["\\c 1\n", "\\v 1 aaa\n"])]

/-- A Gutenberg input whose verse line carries two chapter:verse
references. -/
def c3GutLines : List String :=
  [genesisTitle ++ "\n", genesisTitle ++ "\n", "The Book of Job\n", "1:1 foo 1:2 bar\n"]

/-- The same two-reference verse line for convert_kjv. -/
def c3KjvLines : List String := ["The Book of Job", "1:1 foo 1:2 bar"]

/-! ### Helper lemmas -/

set_option maxRecDepth 16000

/-- The patcher emits exactly one output line per input line. -/
theorem fixLines_length (st : FixState) (ls : List String) :
    (fixLines st ls).length = ls.length := by
  induction ls generalizing st with
  | nil => rfl
  | cons l t ih => simp [fixLines, ih]

/-- The patcher's output line at position i is the step output of the
input line at i, at the tracked (book, chapter) state. -/
theorem fixLines_getElem? (st : FixState) (ls : List String) (i : Nat) (line : String)
    (h : ls[i]? = some line) :
    (fixLines st ls)[i]? = some (fixStep (fixStateAt st ls i) line).2 := by
  induction ls generalizing st i with
  | nil => simp at h
  | cons l t ih =>
    cases i with
    | zero =>
      simp only [List.getElem?_cons_zero, Option.some.injEq] at h
      subst h
      simp [fixLines, fixStateAt]
    | succ j =>
      simp only [List.getElem?_cons_succ] at h
      simpa [fixLines, fixStateAt, List.take_succ_cons] using ih (fixStep st l).1 j h

/-- A string whose first character is a digit has a digit among its
first three characters. -/
theorem take3_any_digit {l : List Char} (h : (l.headD ' ').isDigit = true) :
    (l.take 3).any Char.isDigit = true := by
  cases l with
  | nil => simp at h
  | cons c t => simp only [List.headD_cons] at h; simp [h]

/-- A string starting with "Chapter " has head 'C'. -/
theorem startsWith_chapter_head {s : String} (h : pyStartsWith s "Chapter " = true) :
    s.data.headD ' ' = 'C' := by
  unfold pyStartsWith at h
  have hc : ("Chapter " : String).data = ['C','h','a','p','t','e','r',' '] := rfl
  rw [hc] at h
  cases hs : s.data with
  | nil => rw [hs] at h; simp [List.isPrefixOf] at h
  | cons c t =>
    rw [hs] at h
    simp only [List.isPrefixOf, Bool.and_eq_true, beq_iff_eq] at h
    rw [List.headD_cons]
    exact h.1.symm

/-- If a digit-initial stripped line's first token does not parse as an
integer, the patcher's branch chain leaves both the state and the line
unchanged. -/
theorem fixStepCore_parse_failure (st : FixState) (line stripped : String)
    (hd : (stripped.data.headD ' ').isDigit = true)
    (hp : pyInt? (String.mk ((pySplitN1 stripped.data).headD [])) = none) :
    fixStepCore st line stripped = (st, line) := by
  have hne : ¬ (stripped = "") := by
    intro he
    rw [he] at hd
    simp at hd
  have h3 : (stripped.data.take 3).any Char.isDigit = true := take3_any_digit hd
  have hch : ¬ (pyStartsWith stripped "Chapter " = true) := by
    intro hcw
    rw [startsWith_chapter_head hcw] at hd
    simp at hd
  unfold fixStepCore
  rw [if_neg hne, if_neg (by simp [h3]), if_neg hch, if_pos hd]
  unfold fixVerse
  rw [hp]

/-- If the digit branch changes a line, the token parses, the key is in
the table, the shortness condition holds and the output is the patched
line. -/
theorem fixVerse_changed (st : FixState) (line stripped : String)
    (h : (fixVerse st line stripped).2 ≠ line) :
    ∃ n ct,
      pyInt? (String.mk ((pySplitN1 stripped.data).headD [])) = some n ∧
      get_complete_verse_text st.book st.chapter n = some ct ∧
      fixShortCond (String.mk (((pySplitN1 stripped.data)[1]?).getD [])) ∧
      (fixVerse st line stripped).2 = toString n ++ " " ++ ct ++ "\n" := by
  unfold fixVerse at h
  cases hm : pyInt? (String.mk ((pySplitN1 stripped.data).headD [])) with
  | none => simp only [hm] at h; exact absurd rfl h
  | some n =>
    simp only [hm] at h
    cases hct : get_complete_verse_text st.book st.chapter n with
    | none => simp only [hct] at h; exact absurd rfl h
    | some ct =>
      simp only [hct] at h
      by_cases h30 : fixShortCond (String.mk (((pySplitN1 stripped.data)[1]?).getD []))
      · refine ⟨n, ct, ?_, ?_, h30, ?_⟩ <;> simp only [fixVerse, hm, hct, if_pos h30]
      · rw [if_neg h30] at h
        exact absurd rfl h

/-- If the patcher's branch chain changes a line, then the stripped line
starts with a digit, its first token parses as a verse number n, the
tracked (book, chapter, n) is a key of the fix table, the shortness
condition holds and the output is the patched line. -/
theorem fixStepCore_changed (st : FixState) (line stripped : String)
    (h : (fixStepCore st line stripped).2 ≠ line) :
    ∃ n ct,
      (stripped.data.headD ' ').isDigit = true ∧
      pyInt? (String.mk ((pySplitN1 stripped.data).headD [])) = some n ∧
      get_complete_verse_text st.book st.chapter n = some ct ∧
      fixShortCond (String.mk (((pySplitN1 stripped.data)[1]?).getD [])) ∧
      (fixStepCore st line stripped).2 = toString n ++ " " ++ ct ++ "\n" := by
  by_cases h1 : stripped = ""
  · exact absurd (by unfold fixStepCore; rw [if_pos h1]) h
  by_cases h2 : (!pyStartsWith stripped "Chapter" &&
      !((stripped.data.take 3).any Char.isDigit) &&
      fix_book_names.contains stripped) = true
  · exact absurd (by unfold fixStepCore; rw [if_neg h1, if_pos h2]) h
  by_cases h3 : pyStartsWith stripped "Chapter " = true
  · exact absurd (by unfold fixStepCore; rw [if_neg h1, if_neg h2, if_pos h3]) h
  by_cases h4 : (stripped.data.headD ' ').isDigit = true
  · have heq : fixStepCore st line stripped = fixVerse st line stripped := by
      unfold fixStepCore; rw [if_neg h1, if_neg h2, if_neg h3, if_pos h4]
    rw [heq] at h
    obtain ⟨n, ct, hm, hct, h30, hout⟩ := fixVerse_changed st line stripped h
    exact ⟨n, ct, h4, hm, hct, h30, by rw [heq, hout]⟩
  · exact absurd
      (by unfold fixStepCore; rw [if_neg h1, if_neg h2, if_neg h3, if_neg h4]) h

/-- chunkByChapter is empty only for the empty verse list. -/
theorem chunkByChapter_eq_nil {vs : List GRec} (h : chunkByChapter vs = []) :
    vs = [] := by
  cases vs with
  | nil => rfl
  | cons r rest =>
    exfalso
    rcases hc : chunkByChapter rest with _ | ⟨⟨c, run⟩, out⟩
    · rw [show chunkByChapter (r :: rest) = [(r.chapter, [r])] from by
        simp [chunkByChapter, hc]] at h
      simp at h
    · by_cases he : r.chapter = c
      · rw [show chunkByChapter (r :: rest) = (c, r :: run) :: out from by
          simp [chunkByChapter, hc, he]] at h
        simp at h
      · rw [show chunkByChapter (r :: rest) = (r.chapter, [r]) :: (c, run) :: out from by
          simp [chunkByChapter, hc, he]] at h
        simp at h

/-- The first chunk of a nonempty list carries the head's chapter. -/
theorem chunkByChapter_cons (r : GRec) (rest : List GRec) :
    ∃ run out, chunkByChapter (r :: rest) = (r.chapter, run) :: out := by
  rcases hc : chunkByChapter rest with _ | ⟨⟨c, run⟩, out⟩
  · exact ⟨[r], [], by simp [chunkByChapter, hc]⟩
  · by_cases he : r.chapter = c
    · exact ⟨r :: run, out, by simp [chunkByChapter, hc, he]⟩
    · exact ⟨[r], (c, run) :: out, by simp [chunkByChapter, hc, he]⟩

/-- Joining rendered chunks with blank separators equals rendering the
first chunk followed by the blank-prefixed rest. -/
theorem joinBlank_map_renderChunk :
    ∀ (out : List (Option Nat × List GRec)) (p : Option Nat × List GRec),
      joinBlank ((p :: out).map renderChunk) = renderChunk p ++ renderRest out
  | [], p => by simp [joinBlank, renderRest]
  | q :: rest, p => by
    have ih := joinBlank_map_renderChunk rest q
    simp only [List.map_cons] at ih ⊢
    rw [show joinBlank (renderChunk p :: renderChunk q :: List.map renderChunk rest) =
        renderChunk p ++ "" :: joinBlank (renderChunk q :: List.map renderChunk rest)
      from rfl, ih]
    simp [renderRest]

/-- writeVersesAux describes exactly the chunk rendering of specAux, for
verse lists whose chapters are all set. -/
theorem writeVersesAux_chunks (vs : List GRec)
    (hall : ∀ r ∈ vs, r.chapter.isSome = true) :
    ∀ cur, writeVersesAux cur vs = specAux cur (chunkByChapter vs) := by
  induction vs with
  | nil => intro cur; rfl
  | cons r rest ih =>
    intro cur
    have hr : r.chapter.isSome = true := hall r (List.mem_cons_self _ _)
    have hrest : ∀ x ∈ rest, x.chapter.isSome = true :=
      fun x hx => hall x (List.mem_cons_of_mem _ hx)
    have ihs := ih hrest
    rcases hc : chunkByChapter rest with _ | ⟨⟨c', run'⟩, out'⟩
    · have hnil : rest = [] := chunkByChapter_eq_nil hc
      subst hnil
      by_cases he : r.chapter = cur <;>
        simp [writeVersesAux, chunkByChapter, specAux, he, renderChunk, renderRest]
    · have hck : chunkByChapter (r :: rest) =
          if r.chapter = c' then (c', r :: run') :: out'
          else (r.chapter, [r]) :: (c', run') :: out' := by
        simp [chunkByChapter, hc]
      by_cases hrc : r.chapter = c' <;> by_cases he : r.chapter = cur
      · have hcc : c' = cur := hrc ▸ he
        simp [writeVersesAux, specAux, hck, hc, hrc, he, ihs, renderChunk,
          renderRest, hr, hcc]
      · have hcc : ¬ (c' = cur) := fun hq => he (hrc ▸ hq)
        simp [writeVersesAux, specAux, hck, hc, hrc, he, ihs, renderChunk,
          renderRest, hr, hcc]
      · have hcc : ¬ (c' = cur) := fun hq => hrc ((hq.trans he.symm).symm)
        have hcs : cur.isSome = true := he ▸ hr
        have hnc : ¬ (cur = c') := fun hq => hrc (he.trans hq)
        simp [writeVersesAux, specAux, hck, hc, hrc, he, ihs, renderChunk,
          renderRest, hr, hcc, hcs, hnc]
      · have hcc : ¬ (c' = r.chapter) := fun hq => hrc hq.symm
        simp [writeVersesAux, specAux, hck, hc, hrc, he, ihs, renderChunk,
          renderRest, hr, hcc]

/-- The head of a dropWhile result falsifies the predicate. -/
theorem dropWhile_head_false {α : Type _} (p : α → Bool) :
    ∀ (l : List α) (c : α) (t : List α), l.dropWhile p = c :: t → p c = false := by
  intro l
  induction l with
  | nil => intro c t h; simp [List.dropWhile] at h
  | cons a l ih =>
    intro c t h
    rw [List.dropWhile_cons] at h
    by_cases hp : p a
    · rw [if_pos hp] at h
      exact ih c t h
    · rw [if_neg hp] at h
      injection h with h1 h2
      rw [← h1]
      exact Bool.eq_false_iff.mpr hp

/-- A nonempty stripped list contains a non-whitespace character. -/
theorem pyStrip_any (l : List Char) (h : ¬(pyStrip l = [])) :
    (pyStrip l).any (fun c => !isWsC c) = true := by
  unfold pyStrip at h ⊢
  cases hc : (l.dropWhile isWsC).reverse.dropWhile isWsC with
  | nil => rw [hc] at h; exact absurd rfl h
  | cons c t =>
    have hcf : isWsC c = false := dropWhile_head_false isWsC _ c t hc
    have hcm : c ∈ (c :: t).reverse := by simp
    exact List.any_eq_true.mpr ⟨c, hcm, by simp [hcf]⟩

/-- Splitting a list holding a non-whitespace character (or with a
nonempty pending word) yields a nonempty first word. -/
theorem pySplitAux_first :
    ∀ (l acc : List Char),
      (acc.isEmpty = false ∨ l.any (fun c => !isWsC c) = true) →
      ∃ w ws, pySplitAux acc l = w :: ws ∧ ¬(w = []) := by
  intro l
  induction l with
  | nil =>
    intro acc h
    rcases h with h | h
    · refine ⟨acc.reverse, [], ?_, ?_⟩
      · simp only [pySplitAux]
        rw [if_neg (by rw [h]; exact Bool.false_ne_true)]
      · intro he
        have ha : acc = [] := by simpa using he
        rw [ha] at h
        simp at h
    · simp at h
  | cons c t ih =>
    intro acc h
    by_cases hw : isWsC c
    · simp only [pySplitAux]
      rw [if_pos hw]
      by_cases ha : acc.isEmpty
      · rw [if_pos ha]
        apply ih []
        right
        rcases h with h | h
        · rw [ha] at h; simp at h
        · simp only [List.any_cons, hw, Bool.not_true, Bool.false_or] at h
          exact h
      · rw [if_neg ha]
        refine ⟨acc.reverse, pySplitAux [] t, rfl, ?_⟩
        intro he
        have hae : acc = [] := by simpa using he
        rw [hae] at ha
        exact ha rfl
    · simp only [pySplitAux]
      rw [if_neg hw]
      apply ih (c :: acc)
      left
      rfl

/-- Space-joining a list with a nonempty first word is nonempty. -/
theorem joinSpace_cons_ne (w : List Char) (ws : List (List Char)) (hw : ¬(w = [])) :
    ¬(joinSpace (w :: ws) = []) := by
  cases ws with
  | nil => simpa [joinSpace] using hw
  | cons x xs =>
    intro he
    rw [show joinSpace (w :: x :: xs) = w ++ ' ' :: joinSpace (x :: xs) from rfl] at he
    rcases List.append_eq_nil.mp he with ⟨h1, h2⟩
    exact List.cons_ne_nil _ _ h2

/-- A string holding a non-whitespace character does not normalize to
the empty string. -/
theorem pyNormalizeS_ne_empty (s : String)
    (h : s.data.any (fun c => !isWsC c) = true) : ¬(pyNormalizeS s = "") := by
  intro he
  have hl : pyNormalize s.data = [] := congrArg String.data he
  unfold pyNormalize pySplit at hl
  obtain ⟨w, ws, hsp, hw⟩ := pySplitAux_first s.data [] (Or.inr h)
  rw [hsp] at hl
  exact joinSpace_cons_ne w ws hw hl

/-- A pointwise property over an append. -/
theorem all_append {α : Type _} {P : α → Prop} {l1 l2 : List α}
    (h1 : ∀ a ∈ l1, P a) (h2 : ∀ a ∈ l2, P a) : ∀ a ∈ l1 ++ l2, P a := by
  intro a ha
  rcases List.mem_append.mp ha with ha | ha
  · exact h1 a ha
  · exact h2 a ha

/-- A pointwise property over Option.toList. -/
theorem all_toList {α : Type _} {P : α → Prop} {o : Option α}
    (h : ∀ a, o = some a → P a) : ∀ a ∈ o.toList, P a := by
  intro a ha
  cases o with
  | none => exact absurd ha (by simp)
  | some x =>
    have hax : a = x := by simpa using ha
    rw [hax]
    exact h x rfl

/-- insertLe permutes consing. -/
theorem insertLe_perm {α : Type _} (le : α → α → Bool) (a : α) (l : List α) :
    List.Perm (insertLe le a l) (a :: l) := by
  induction l with
  | nil => exact List.Perm.refl _
  | cons b t ih =>
    unfold insertLe
    by_cases hle : le a b
    · rw [if_pos hle]
    · rw [if_neg hle]
      exact (ih.cons b).trans (List.Perm.swap a b t)

/-- sortLe permutes its input. -/
theorem sortLe_perm {α : Type _} (le : α → α → Bool) (l : List α) :
    List.Perm (sortLe le l) l := by
  induction l with
  | nil => exact List.Perm.refl _
  | cons a t ih =>
    exact (insertLe_perm le a (sortLe le t)).trans (ih.cons a)

/-- Overwriting the text at one key of an association list keeps the key
list. -/
theorem map_update_fst (vs : List (Nat × String)) (n : Nat) (t : String) :
    (vs.map fun p => if p.1 = n then (p.1, p.2 ++ " " ++ t) else p).map Prod.fst
      = vs.map Prod.fst := by
  induction vs with
  | nil => rfl
  | cons p rest ih =>
    by_cases hp : p.1 = n
    · simp [hp, ih]
    · simp [hp, ih]

/-- mergeVerse keeps the keys of the verse dict distinct. -/
theorem mergeVerse_keys (vs : List (Nat × String)) (n : Nat) (t : String)
    (h : (vs.map Prod.fst).Nodup) : ((mergeVerse vs n t).map Prod.fst).Nodup := by
  unfold mergeVerse
  by_cases hc : (vs.map Prod.fst).contains n
  · rw [if_pos hc, map_update_fst]
    exact h
  · rw [if_neg hc, List.map_append]
    have hn : ¬(n ∈ vs.map Prod.fst) := fun hm => hc (by simpa using hm)
    simp [List.nodup_append, h, hn]

/-- mergeVerse keeps every stored text non-blank when the incoming text
is non-blank. -/
theorem mergeVerse_texts (vs : List (Nat × String)) (n : Nat) (t : String)
    (hvs : ∀ p ∈ vs, (p.2.data.any (fun c => !isWsC c)) = true)
    (ht : (t.data.any (fun c => !isWsC c)) = true) :
    ∀ p ∈ mergeVerse vs n t, (p.2.data.any (fun c => !isWsC c)) = true := by
  unfold mergeVerse
  by_cases hc : (vs.map Prod.fst).contains n
  · rw [if_pos hc]
    intro p hp
    obtain ⟨q, hq, hpq⟩ := List.mem_map.mp hp
    subst hpq
    by_cases hqn : q.1 = n
    · simp [hqn, String.data_append, List.any_append, hvs q hq]
    · simp [hqn, hvs q hq]
  · rw [if_neg hc]
    intro p hp
    rcases List.mem_append.mp hp with hp | hp
    · exact hvs p hp
    · have hpt : p = (n, t) := by simpa using hp
      rw [hpt]
      exact ht

/-- A nonempty cleanFinish result contains a non-whitespace character:
both branches produce a stripped list. -/
theorem cleanFinish_any (l : List Char) (h : ¬(cleanFinish l = "")) :
    ((cleanFinish l).data.any (fun c => !isWsC c)) = true := by
  unfold cleanFinish at h ⊢
  split_ifs at h ⊢ with hq
  · exact pyStrip_any ((pyStrip l).drop 1).dropLast (fun he => h (by rw [he]))
  · exact pyStrip_any l (fun he => h (by rw [he]))

/-- A nonempty clean_usfm_text result contains a non-whitespace
character: both branches of its final step produce a stripped list. -/
theorem clean_nonws (s : String) (h : ¬(clean_usfm_text s = "")) :
    ((clean_usfm_text s).data.any (fun c => !isWsC c)) = true :=
  cleanFinish_any (cleanSubs s) h

/-- flushVerse with no pending verse number is the identity. -/
theorem flushVerse_none (st : UsfmState) (hn : st.curVerseNum = none) :
    flushVerse st = st.curVerses := by
  unfold flushVerse
  rw [hn]

/-- flushVerse with a pending verse number, as a top-level conditional. -/
theorem flushVerse_some (st : UsfmState) (n : Nat) (hn : st.curVerseNum = some n) :
    flushVerse st =
      if st.curVerseText.isEmpty then st.curVerses
      else if clean_usfm_text (pyStripS (joinSpaceS st.curVerseText)) = "" then
        st.curVerses
      else mergeVerse st.curVerses n
        (clean_usfm_text (pyStripS (joinSpaceS st.curVerseText))) := by
  unfold flushVerse
  rw [hn]

/-- flushVerse keeps the keys of the verse dict distinct. -/
theorem flushVerse_keys (st : UsfmState)
    (h : (st.curVerses.map Prod.fst).Nodup) :
    ((flushVerse st).map Prod.fst).Nodup := by
  cases hn : st.curVerseNum with
  | none => rw [flushVerse_none st hn]; exact h
  | some n =>
    rw [flushVerse_some st n hn]
    by_cases h1 : st.curVerseText.isEmpty
    · rw [if_pos h1]; exact h
    · rw [if_neg h1]
      by_cases h2 : clean_usfm_text (pyStripS (joinSpaceS st.curVerseText)) = ""
      · rw [if_pos h2]; exact h
      · rw [if_neg h2]
        exact mergeVerse_keys _ _ _ h

/-- flushVerse keeps every stored text non-blank: the cleaned text is
stored only when it is nonempty, and then it contains a non-whitespace
character. -/
theorem flushVerse_texts (st : UsfmState)
    (ht : ∀ p ∈ st.curVerses, (p.2.data.any (fun c => !isWsC c)) = true) :
    ∀ p ∈ flushVerse st, (p.2.data.any (fun c => !isWsC c)) = true := by
  cases hn : st.curVerseNum with
  | none => rw [flushVerse_none st hn]; exact ht
  | some n =>
    rw [flushVerse_some st n hn]
    by_cases h1 : st.curVerseText.isEmpty
    · rw [if_pos h1]; exact ht
    · rw [if_neg h1]
      by_cases h2 : clean_usfm_text (pyStripS (joinSpaceS st.curVerseText)) = ""
      · rw [if_pos h2]; exact ht
      · rw [if_neg h2]
        exact mergeVerse_texts _ _ _ ht (clean_nonws _ h2)

/-- Flushing the current chapter preserves well-formedness of all
flushed chapters. -/
theorem chaptersAfterFlush_ok (st : UsfmState)
    (hk : (st.curVerses.map Prod.fst).Nodup)
    (ht : ∀ p ∈ st.curVerses, (p.2.data.any (fun c => !isWsC c)) = true)
    (hch : ∀ ch ∈ st.chapters, ChapterOk ch) :
    ∀ ch ∈ chaptersAfterFlush st, ChapterOk ch := by
  cases hc : st.curChapter with
  | none =>
    have heq : chaptersAfterFlush st = st.chapters := by
      unfold chaptersAfterFlush
      rw [hc]
    rw [heq]
    exact hch
  | some c =>
    have heq : chaptersAfterFlush st =
        if st.curVerses.isEmpty then st.chapters
        else st.chapters ++ [(c, sortLe verseLe st.curVerses)] := by
      unfold chaptersAfterFlush
      rw [hc]
    rw [heq]
    by_cases he : st.curVerses.isEmpty
    · rw [if_pos he]; exact hch
    · rw [if_neg he]
      intro ch hm
      rcases List.mem_append.mp hm with hm | hm
      · exact hch ch hm
      · have hch2 : ch = (c, sortLe verseLe st.curVerses) := by simpa using hm
        rw [hch2]
        unfold ChapterOk
        constructor
        · exact ((sortLe_perm verseLe st.curVerses).map Prod.fst).nodup_iff.mpr hk
        · intro p hp
          exact ht p ((sortLe_perm verseLe st.curVerses).mem_iff.mp hp)

/-- Every branch of the USFM line loop preserves the parser invariant. -/
theorem usfmLineCore_inv (st : UsfmState) (line : String) (h : ParseInv st) :
    ParseInv (usfmLineCore st line) := by
  obtain ⟨hk, ht, hch⟩ := h
  unfold ParseInv usfmLineCore
  by_cases h1 : (pyStartsWith line "\\id" || pyStartsWith line "\\ide" ||
      pyStartsWith line "\\h" || pyStartsWith line "\\toc" ||
      pyStartsWith line "\\mt" : Bool)
  · rw [if_pos h1]; exact ⟨hk, ht, hch⟩
  · rw [if_neg h1]
    by_cases h2 : pyStartsWith line "\\c"
    · rw [if_pos h2]
      cases hm : matchChapterNum line.data with
      | some c =>
        refine ⟨by simp, by simp, ?_⟩
        exact chaptersAfterFlush_ok st hk ht hch
      | none => exact ⟨hk, ht, hch⟩
    · rw [if_neg h2]
      cases hv : matchVerseLine line.data with
      | some p =>
        obtain ⟨n, g2⟩ := p
        exact ⟨flushVerse_keys st hk, flushVerse_texts st ht, hch⟩
      | none =>
        by_cases h3 : (st.curVerseNum.isSome && !pyStartsWith line "\\v" : Bool)
        · rw [if_pos h3]; exact ⟨hk, ht, hch⟩
        · rw [if_neg h3]; exact ⟨hk, ht, hch⟩

/-- The line fold of parse_usfm_file preserves the parser invariant. -/
theorem foldl_usfmLine_inv (lines : List String) (st : UsfmState) (h : ParseInv st) :
    ParseInv (lines.foldl usfmLine st) := by
  induction lines generalizing st with
  | nil => exact h
  | cons l t ih =>
    exact ih (usfmLine st l)
      (usfmLineCore_inv st (pyRstripS (preprocess_usfm_line (pyRstripS l))) h)

/-- Every chapter returned by parse_usfm_file is well formed: distinct
verse numbers and non-blank texts. -/
theorem parse_chapters_ok (fname : String) (lines : List String) :
    ∀ ch ∈ (parse_usfm_file fname lines).2, ChapterOk ch := by
  have hinit : ParseInv initUsfmState := by
    unfold ParseInv initUsfmState
    refine ⟨?_, ?_, ?_⟩
    · simp
    · intro p hp; exact absurd hp (List.not_mem_nil p)
    · intro ch hch; exact absurd hch (List.not_mem_nil ch)
  obtain ⟨hk, ht, hch⟩ := foldl_usfmLine_inv lines initUsfmState hinit
  simp only [parse_usfm_file]
  cases hf : (sortLe code_sort_le (book_names.map Prod.fst)).find?
      (fun code => containsSub code (pyUpper fname)) with
  | none =>
    intro ch hm
    exact absurd hm (List.not_mem_nil ch)
  | some code =>
    intro ch hm
    exact chaptersAfterFlush_ok
      { lines.foldl usfmLine initUsfmState with
        curVerses := flushVerse (lines.foldl usfmLine initUsfmState) }
      (flushVerse_keys _ hk) (flushVerse_texts _ ht) hch ch hm

/-- First-occurrence dedup is the identity on a Nodup list disjoint from
the seen accumulator. -/
theorem dedupFirstAux_eq :
    ∀ (l seen : List Nat), l.Nodup → (∀ a ∈ l, ¬(a ∈ seen)) →
      dedupFirstAux seen l = l := by
  intro l
  induction l with
  | nil => intro seen _ _; rfl
  | cons a t ih =>
    intro seen hnd hdis
    unfold dedupFirstAux
    rw [if_neg (fun hc => hdis a (List.mem_cons_self a t) (by simpa using hc))]
    congr 1
    apply ih (seen ++ [a]) (List.nodup_cons.mp hnd).2
    intro b hb hbs
    rcases List.mem_append.mp hbs with hbs | hbs
    · exact hdis b (List.mem_cons_of_mem a hb) hbs
    · have hba : b = a := by simpa using hbs
      rw [hba] at hb
      exact (List.nodup_cons.mp hnd).1 hb

/-- First-occurrence dedup is the identity on a Nodup list. -/
theorem dedupFirst_eq_self (l : List Nat) (h : l.Nodup) : dedupFirst l = l :=
  dedupFirstAux_eq l [] h (fun a _ => List.not_mem_nil a)

/-- The duplicate sanity check emits nothing on distinct verse numbers. -/
theorem chapterWarnings_nil (bn : String) (c : Nat) (nums : List Nat)
    (h : nums.Nodup) : chapterWarnings bn c nums = [] := by
  unfold chapterWarnings
  rw [if_neg (fun hne => hne (congrArg List.length (dedupFirst_eq_self nums h)))]

/-- One chapter step of the directory output loop keeps the warning list
empty and all emitted texts non-blank, given a well-formed chapter. -/
theorem usfmDirChapter_inv (bn : String) (acc : UsfmDirState)
    (ch : Nat × List (Nat × String)) (hok : ChapterOk ch)
    (hw : acc.warnings = [])
    (he : ∀ p ∈ acc.emitted, (p.2.data.any (fun c => !isWsC c)) = true) :
    (usfmDirChapter bn acc ch).warnings = [] ∧
    ∀ p ∈ (usfmDirChapter bn acc ch).emitted,
      (p.2.data.any (fun c => !isWsC c)) = true := by
  obtain ⟨hnd, hts⟩ := hok
  constructor
  · show acc.warnings ++ chapterWarnings bn ch.1 (ch.2.map Prod.fst) = []
    rw [hw, chapterWarnings_nil bn ch.1 _ hnd]
    rfl
  · show ∀ p ∈ acc.emitted ++ sortLe verseLe ch.2,
      (p.2.data.any (fun c => !isWsC c)) = true
    intro p hp
    rcases List.mem_append.mp hp with hp | hp
    · exact he p hp
    · exact hts p ((sortLe_perm verseLe ch.2).mem_iff.mp hp)

/-- The chapter fold of one file keeps the warning list empty and all
emitted texts non-blank. -/
theorem usfmDirChapter_fold_inv (bn : String) :
    ∀ (chs : List (Nat × List (Nat × String))) (acc : UsfmDirState),
      (∀ ch ∈ chs, ChapterOk ch) → acc.warnings = [] →
      (∀ p ∈ acc.emitted, (p.2.data.any (fun c => !isWsC c)) = true) →
      (chs.foldl (usfmDirChapter bn) acc).warnings = [] ∧
      ∀ p ∈ (chs.foldl (usfmDirChapter bn) acc).emitted,
        (p.2.data.any (fun c => !isWsC c)) = true := by
  intro chs
  induction chs with
  | nil => intro acc _ hw he; exact ⟨hw, he⟩
  | cons ch rest ih =>
    intro acc hok hw he
    obtain ⟨hw2, he2⟩ :=
      usfmDirChapter_inv bn acc ch (hok ch (List.mem_cons_self ch rest)) hw he
    exact ih (usfmDirChapter bn acc ch)
      (fun x hx => hok x (List.mem_cons_of_mem ch hx)) hw2 he2

/-- One file step of the directory loop keeps the warning list empty
and all emitted texts non-blank. -/
theorem usfmDirFile_inv (acc : UsfmDirState) (f : String × List String)
    (hw : acc.warnings = [])
    (he : ∀ p ∈ acc.emitted, (p.2.data.any (fun c => !isWsC c)) = true) :
    (usfmDirFile acc f).warnings = [] ∧
    ∀ p ∈ (usfmDirFile acc f).emitted,
      (p.2.data.any (fun c => !isWsC c)) = true := by
  rcases hp : parse_usfm_file f.1 f.2 with ⟨ob, chapters⟩
  cases ob with
  | none =>
    have heq : usfmDirFile acc f = acc := by
      unfold usfmDirFile
      rw [hp]
    rw [heq]
    exact ⟨hw, he⟩
  | some bn =>
    have heq : usfmDirFile acc f =
        if chapters.isEmpty then acc
        else if acc.processedBooks.contains bn then acc
        else chapters.foldl (usfmDirChapter bn)
          { acc with processedBooks := acc.processedBooks ++ [bn],
                     output := acc.output ++ [bn] } := by
      unfold usfmDirFile
      rw [hp]
    rw [heq]
    by_cases h1 : chapters.isEmpty
    · rw [if_pos h1]; exact ⟨hw, he⟩
    · rw [if_neg h1]
      by_cases h2 : acc.processedBooks.contains bn
      · rw [if_pos h2]; exact ⟨hw, he⟩
      · rw [if_neg h2]
        have hok : ∀ ch ∈ chapters, ChapterOk ch := by
          have h3 := parse_chapters_ok f.1 f.2
          rw [hp] at h3
          exact h3
        exact usfmDirChapter_fold_inv bn chapters _ hok hw he

/-- The file fold of the directory converter keeps the warning list
empty and all emitted texts non-blank. -/
theorem usfmDir_fold_inv :
    ∀ (files : List (String × List String)) (acc : UsfmDirState),
      acc.warnings = [] →
      (∀ p ∈ acc.emitted, (p.2.data.any (fun c => !isWsC c)) = true) →
      (files.foldl usfmDirFile acc).warnings = [] ∧
      ∀ p ∈ (files.foldl usfmDirFile acc).emitted,
        (p.2.data.any (fun c => !isWsC c)) = true := by
  intro files
  induction files with
  | nil => intro acc hw he; exact ⟨hw, he⟩
  | cons f rest ih =>
    intro acc hw he
    obtain ⟨hw2, he2⟩ := usfmDirFile_inv acc f hw he
    exact ih (usfmDirFile acc f) hw2 he2

/-- convert_usfm_directory never accumulates a warning, and every
emitted verse record has a non-blank text. -/
theorem convert_usfm_directory_inv (files : List (String × List String)) :
    (convert_usfm_directory files).warnings = [] ∧
    ∀ p ∈ (convert_usfm_directory files).emitted,
      (p.2.data.any (fun c => !isWsC c)) = true := by
  have key : ∀ (st : UsfmDirState), st.warnings = [] →
      (∀ p ∈ st.emitted, (p.2.data.any (fun c => !isWsC c)) = true) →
      (if st.output.getLast? = some "" then { st with output := st.output.dropLast }
        else st).warnings = [] ∧
      ∀ p ∈ (if st.output.getLast? = some "" then
          { st with output := st.output.dropLast } else st).emitted,
        (p.2.data.any (fun c => !isWsC c)) = true := by
    intro st hw he
    by_cases hc : st.output.getLast? = some ""
    · rw [if_pos hc]; exact ⟨hw, he⟩
    · rw [if_neg hc]; exact ⟨hw, he⟩
  obtain ⟨hw, he⟩ := usfmDir_fold_inv
    (sortLe (fun a b => decide (get_book_code a.1 ≤ get_book_code b.1))
      (files.filter (fun f => !(pyStartsWith f.1 "00-"))))
    { output := [], warnings := [], processedBooks := [], emitted := [] } rfl
    (fun p hp => absurd hp (List.not_mem_nil p))
  exact key _ hw he

/-- A pending Gutenberg verse record always carries a non-blank text:
pendingOf stores a stripped joined text only when it is nonempty. -/
theorem pendingOf_nonws (ch : Option Nat) (v : Option Nat) (txts : List String)
    (r : GRec) (h : pendingOf ch v txts = some r) :
    (r.text.data.any (fun c => !isWsC c)) = true := by
  cases v with
  | none => exact absurd h (by simp [pendingOf])
  | some vn =>
    have heq : pendingOf ch (some vn) txts =
        if pyStripS (joinSpaceS txts) = "" then none
        else some { chapter := ch, verse := vn, text := pyStripS (joinSpaceS txts) } := rfl
    rw [heq] at h
    by_cases ht : pyStripS (joinSpaceS txts) = ""
    · rw [if_pos ht] at h
      exact absurd h (by simp)
    · rw [if_neg ht] at h
      have hr : r = { chapter := ch, verse := vn, text := pyStripS (joinSpaceS txts) } := by
        injection h with h2
        exact h2.symm
      rw [hr]
      exact pyStrip_any (joinSpaceS txts).data (fun he => ht (congrArg String.mk he))

/-- Every branch of the Gutenberg line loop preserves non-blankness of
all pending and ghost-recorded verse records. -/
theorem gutLineCore_inv (st : GutState) (ls : String) (h : GutInv st) :
    GutInv (gutLineCore st ls) := by
  obtain ⟨hv, he⟩ := h
  have hpr : ∀ r, pendingOf st.chapter st.verse st.curText = some r →
      (r.text.data.any (fun c => !isWsC c)) = true :=
    fun r hr => pendingOf_nonws st.chapter st.verse st.curText r hr
  unfold GutInv gutLineCore
  by_cases h1 : (containsSub "*** START" ls || containsSub "*** END" ls : Bool)
  · rw [if_pos h1]; exact ⟨hv, he⟩
  · rw [if_neg h1]
    by_cases h2 : containsSub "The First Book of Moses: Called Genesis" ls
    · rw [if_pos h2]; exact ⟨hv, he⟩
    · rw [if_neg h2]
      by_cases h3 : (!st.started : Bool)
      · rw [if_pos h3]; exact ⟨hv, he⟩
      · rw [if_neg h3]
        cases hb : book_mapping.lookup ls with
        | some bname =>
          refine ⟨?_, ?_⟩
          · intro r hr
            exact absurd hr (by simp)
          · exact all_append he (all_toList hpr)
        | none =>
          by_cases h4 : ls = ""
          · rw [if_pos h4]
            by_cases h5 : st.curText.isEmpty
            · rw [if_pos h5]; exact ⟨hv, he⟩
            · rw [if_neg h5]; exact ⟨hv, he⟩
          · rw [if_neg h4]
            cases hf : findRef ls.data with
            | some trip =>
              obtain ⟨cnum, vnum, after⟩ := trip
              exact ⟨all_append hv (all_toList hpr), all_append he (all_toList hpr)⟩
            | none =>
              by_cases h6 : st.verse.isSome
              · rw [if_pos h6]; exact ⟨hv, he⟩
              · rw [if_neg h6]; exact ⟨hv, he⟩

/-- The line fold of the Gutenberg converter preserves its invariant. -/
theorem foldl_gutLine_inv (lines : List String) (st : GutState) (h : GutInv st) :
    GutInv (lines.foldl gutLine st) := by
  induction lines generalizing st with
  | nil => exact h
  | cons l t ih => exact ih (gutLine st l) (gutLineCore_inv st (pyStripS l) h)

/-- Every verse record ever appended by convert_gutenberg_to_kjv_format
(including the final flush) has a non-blank text. -/
theorem convert_gutenberg_inv (lines : List String) :
    ∀ r ∈ (convert_gutenberg_to_kjv_format lines).emitted,
      (r.text.data.any (fun c => !isWsC c)) = true := by
  have hinit : GutInv initGutState := by
    unfold GutInv initGutState
    refine ⟨?_, ?_⟩
    · intro r hr; exact absurd hr (List.not_mem_nil r)
    · intro r hr; exact absurd hr (List.not_mem_nil r)
  obtain ⟨hv, he⟩ := foldl_gutLine_inv lines initGutState hinit
  have hpr : ∀ r, pendingOf (lines.foldl gutLine initGutState).chapter
      (lines.foldl gutLine initGutState).verse
      (lines.foldl gutLine initGutState).curText = some r →
      (r.text.data.any (fun c => !isWsC c)) = true :=
    fun r hr => pendingOf_nonws _ _ _ r hr
  exact all_append he (all_toList hpr)

/-- dropWhile on a list whose head falsifies the predicate is the
identity. -/
theorem dropWhile_cons_false {α : Type _} (p : α → Bool) (a : α) (l : List α)
    (h : p a = false) : (a :: l).dropWhile p = a :: l := by
  rw [List.dropWhile_cons,
    if_neg (fun ht => absurd (h.symm.trans ht) Bool.false_ne_true)]

/-- A nonempty dropWhile result keeps the last element of the input. -/
theorem dropWhile_getLast? {α : Type _} (p : α → Bool) :
    ∀ (w : List α), ¬(w.dropWhile p = []) → (w.dropWhile p).getLast? = w.getLast? := by
  intro w
  induction w with
  | nil => intro h; exact absurd rfl h
  | cons a w ih =>
    intro h
    rw [List.dropWhile_cons] at h ⊢
    by_cases hp : p a
    · rw [if_pos hp] at h ⊢
      rw [ih h]
      have hw : ¬(w = []) := fun he => h (by rw [he]; rfl)
      cases w with
      | nil => exact absurd rfl hw
      | cons b t => exact List.getLast?_cons_cons.symm
    · rw [if_neg hp]

/-- The last element of an append with a nonempty right part comes from
the right part. -/
theorem getLast?_append_cons {α : Type _} (l₁ : List α) (x : α) (l₂ : List α) :
    (l₁ ++ x :: l₂).getLast? = (x :: l₂).getLast? := by
  induction l₁ with
  | nil => rfl
  | cons a l ih =>
    rw [List.cons_append]
    cases hc : l ++ x :: l₂ with
    | nil =>
      have hnn : ¬(l ++ x :: l₂ = []) := by simp
      exact absurd hc hnn
    | cons b w =>
      rw [List.getLast?_cons_cons, ← hc, ih]

/-- The first character of a stripped list is not whitespace. -/
theorem pyStrip_head_not_ws (l : List Char) (c : Char)
    (h : (pyStrip l).head? = some c) : isWsC c = false := by
  unfold pyStrip at h
  rw [List.head?_reverse] at h
  have hne : ¬((l.dropWhile isWsC).reverse.dropWhile isWsC = []) := by
    intro he
    rw [he] at h
    simp at h
  rw [dropWhile_getLast? isWsC (l.dropWhile isWsC).reverse hne] at h
  rw [List.getLast?_reverse] at h
  cases hd : l.dropWhile isWsC with
  | nil => rw [hd] at h; simp at h
  | cons b t =>
    rw [hd] at h
    have hbc : b = c := by simpa using h
    rw [← hbc]
    exact dropWhile_head_false isWsC l b t hd

/-- The last character of a stripped list is not whitespace. -/
theorem pyStrip_getLast_not_ws (l : List Char) (d : Char)
    (h : (pyStrip l).getLast? = some d) : isWsC d = false := by
  unfold pyStrip at h
  rw [List.getLast?_reverse] at h
  cases hd : (l.dropWhile isWsC).reverse.dropWhile isWsC with
  | nil => rw [hd] at h; simp at h
  | cons b t =>
    rw [hd] at h
    have hbd : b = d := by simpa using h
    rw [← hbd]
    exact dropWhile_head_false isWsC _ b t hd

/-- Stripping a word, a space and the same word again is the identity
when the word is nonempty with non-whitespace ends. -/
theorem pyStrip_pad (t : List Char) (hne : ¬(t = []))
    (hh : ∀ c, t.head? = some c → isWsC c = false)
    (hl : ∀ d, t.getLast? = some d → isWsC d = false) :
    pyStrip (t ++ ' ' :: t) = t ++ ' ' :: t := by
  unfold pyStrip
  have e1 : (t ++ ' ' :: t).dropWhile isWsC = t ++ ' ' :: t := by
    cases t with
    | nil => exact absurd rfl hne
    | cons a t2 =>
      have ha : isWsC a = false := hh a rfl
      exact dropWhile_cons_false isWsC a (t2 ++ ' ' :: (a :: t2)) ha
  rw [e1]
  have hlast : (t ++ ' ' :: t).getLast? = t.getLast? := by
    rw [getLast?_append_cons t ' ' t]
    cases t with
    | nil => exact absurd rfl hne
    | cons a t2 => exact List.getLast?_cons_cons
  obtain ⟨d, hd⟩ : ∃ d, t.getLast? = some d := by
    cases t with
    | nil => exact absurd rfl hne
    | cons a t2 =>
      exact ⟨(a :: t2).getLast (List.cons_ne_nil a t2),
        List.getLast?_eq_getLast _ _⟩
  have hdw : isWsC d = false := hl d hd
  have h2 : ((t ++ ' ' :: t).reverse).head? = some d := by
    rw [List.head?_reverse, hlast, hd]
  cases hur : (t ++ ' ' :: t).reverse with
  | nil => rw [hur] at h2; simp at h2
  | cons x w =>
    rw [hur] at h2
    have hx : x = d := by simpa using h2
    rw [dropWhile_cons_false isWsC x w (by rw [hx]; exact hdw)]
    rw [← hur, List.reverse_reverse]

/-- Stripping the space-doubled form of an already stripped nonempty
list is the identity. -/
theorem pyStrip_strip_pad (l0 : List Char) (hne : ¬(pyStrip l0 = [])) :
    pyStrip (pyStrip l0 ++ ' ' :: pyStrip l0) = pyStrip l0 ++ ' ' :: pyStrip l0 :=
  pyStrip_pad (pyStrip l0) hne
    (fun c hc => pyStrip_head_not_ws l0 c hc)
    (fun d hd => pyStrip_getLast_not_ws l0 d hd)

/-- An empty text buffer yields no pending verse record. -/
theorem pendingOf_nil (ch : Option Nat) (vs : Nat) :
    pendingOf ch (some vs) [] = none := rfl

/-- A buffer holding the same nonempty stripped word twice yields a
record whose text is the word, a space, and the word again. -/
theorem pendingOf_double (ch : Option Nat) (vs : Nat) (l0 : List Char)
    (hne : ¬(pyStrip l0 = [])) :
    pendingOf ch (some vs) [String.mk (pyStrip l0), String.mk (pyStrip l0)] =
      some { chapter := ch, verse := vs,
             text := String.mk (pyStrip l0 ++ ' ' :: pyStrip l0) } := by
  have heq : pendingOf ch (some vs) [String.mk (pyStrip l0), String.mk (pyStrip l0)] =
      if pyStripS (joinSpaceS [String.mk (pyStrip l0), String.mk (pyStrip l0)]) = ""
      then none
      else some { chapter := ch, verse := vs,
                  text := pyStripS (joinSpaceS
                    [String.mk (pyStrip l0), String.mk (pyStrip l0)]) } := rfl
  have hj : pyStripS (joinSpaceS [String.mk (pyStrip l0), String.mk (pyStrip l0)]) =
      String.mk (pyStrip l0 ++ ' ' :: pyStrip l0) := by
    show String.mk (pyStrip (joinSpace [pyStrip l0, pyStrip l0])) = _
    rw [show joinSpace [pyStrip l0, pyStrip l0] =
        pyStrip l0 ++ ' ' :: pyStrip l0 from rfl]
    rw [pyStrip_strip_pad l0 hne]
  have hcon : ¬(String.mk (pyStrip l0 ++ ' ' :: pyStrip l0) = "") := by
    intro hcon
    have h0 : pyStrip l0 ++ ' ' :: pyStrip l0 = [] := congrArg String.data hcon
    rcases List.append_eq_nil.mp h0 with ⟨h1, h2⟩
    exact List.cons_ne_nil _ _ h2
  rw [heq, hj, if_neg hcon]

/-- One j > 0 iteration of convert_kjv's match loop, started at the
cursor state of the previous match, saves exactly the kjvSplitRec record
of the adjacent pair and moves the cursor to this match. -/
theorem kjvLaterMatch_cursor (l : List Char) (st : KjvState) (m nxt : RefMatch)
    (next? : Option RefMatch) :
    kjvLaterMatch l (kjvCursor l st m (some nxt)) m nxt next? =
      kjvCursor l
        { st with verses := st.verses ++ (kjvSplitRec l m nxt).toList,
                  emitted := st.emitted ++ (kjvSplitRec l m nxt).toList }
        nxt next? := by
  have hkb : kjvBetween l m (some nxt) = pyStrip (slice l m.stop nxt.start) := rfl
  by_cases hb : (pyStrip (slice l m.stop nxt.start)).isEmpty
  · have hrec : kjvSplitRec l m nxt = none := by
      unfold kjvSplitRec
      rw [if_pos hb]
    simp [kjvLaterMatch, kjvCursor, kjvSavePending, hkb, hb, hrec, pendingOf_nil]
  · have hb2 : (pyStrip (slice l m.stop nxt.start)).isEmpty = false :=
      Bool.eq_false_iff.mpr hb
    have hne : ¬(pyStrip (slice l m.stop nxt.start) = []) := by
      intro he
      rw [he] at hb
      exact hb rfl
    have hrec : kjvSplitRec l m nxt =
        some { chapter := some m.ch, verse := m.vs,
               text := String.mk (pyStrip (slice l m.stop nxt.start) ++
                 ' ' :: pyStrip (slice l m.stop nxt.start)) } := by
      unfold kjvSplitRec
      rw [if_neg hb]
    have hpend := pendingOf_double (some m.ch) m.vs (slice l m.stop nxt.start) hne
    simp [kjvLaterMatch, kjvCursor, kjvSavePending, hkb, hb2, hrec, hpend]

/-- The whole j > 0 part of convert_kjv's match loop, started at the
cursor of the first match: it appends exactly the kjvSplitRecs records
of all adjacent reference pairs and ends at the cursor of the last
match, whose pending text runs to the end of the line. -/
theorem kjvMatchLoop_cursor (l : List Char) :
    ∀ (ms : List RefMatch) (st : KjvState) (m : RefMatch),
      kjvMatchLoop l (kjvCursor l st m ms.head?) m ms =
        kjvCursor l
          { st with verses := st.verses ++ kjvSplitRecs l m ms,
                    emitted := st.emitted ++ kjvSplitRecs l m ms }
          (lastMatch m ms) none := by
  intro ms
  induction ms with
  | nil =>
    intro st m
    show kjvCursor l st m none = _
    simp [kjvSplitRecs, lastMatch]
  | cons nxt rest ih =>
    intro st m
    show kjvMatchLoop l
        (kjvLaterMatch l (kjvCursor l st m (some nxt)) m nxt rest.head?) nxt rest = _
    rw [kjvLaterMatch_cursor l st m nxt rest.head?]
    rw [ih]
    simp [kjvSplitRecs, lastMatch, List.append_assoc]

/-! ### Claim theorems -/

/-- C1 counterexample: clean_usfm_text is not idempotent.  For the input
consisting of the letter a wrapped in two pairs of double quotes, the
final quote-unwrapping step (lines 107-108) strips exactly one quote
layer per application, so applying the function to its own output
changes the text again. -/
theorem c1_clean_not_idempotent :
    clean_usfm_text (clean_usfm_text "\"\"a\"\"") ≠ clean_usfm_text "\"\"a\"\"" := by
  decide

/-- C1 amended: clean_usfm_text is not idempotent; its final unwrapping
step removes at most one layer of wrapping quotes per application, so
the doubly quote-wrapped input yields a singly wrapped output, whose
re-cleaning unwraps it once more, after which the function is stable on
this text. -/
theorem c1_amended_one_quote_layer_per_pass :
    clean_usfm_text "\"\"a\"\"" = "\"a\"" ∧ clean_usfm_text "\"a\"" = "a" ∧
    clean_usfm_text "a" = "a" := by
  decide

/-- C4 counterexample: for the chapter-1 USFM file whose verse line is
the spec's example, the emitted verse 1 text is not the claimed
"In the beginning God created...": no rule of clean_usfm_text matches a
bare pipe attribute (the \strong rule at line 77 requires a backslash
before strong, and the word-marker rule at line 74 requires \w markers,
both of which line 53 has already made unreachable by deleting every
backslash). -/
theorem c4_markup_not_removed :
    (parse_usfm_file "01GENBSB.usfm" c4UsfmLines).2 ≠
      [(1, [(1, "In the beginning God created...")])] := by
  decide

/-- C4 amended: the converter produces verse 1 with the markup retained:
the text is exactly "In the beginning|strong="H7225" God created...". -/
theorem c4_amended_strong_attribute_kept :
    parse_usfm_file "01GENBSB.usfm" c4UsfmLines =
      (some "Genesis",
       [(1, [(1, "In the beginning|strong=\"H7225\" God created...")])]) := by
  decide

/-- C3 counterexample: convert_gutenberg_to_kjv_format (which uses
re.search and takes only the first reference per line, lines 137-153)
emits verse 1:1 with text "foo 1:2 bar", which contains the digits of
the following reference 1:2, contradicting the claim for this
converter. -/
theorem c3_gutenberg_keeps_following_ref :
    (convert_gutenberg_to_kjv_format c3GutLines).output =
      ["Job", "Chapter 1", "1 foo 1:2 bar"] ∧
    containsSub "1:2" "1 foo 1:2 bar" = true := by
  decide

/-- The end-to-end outputs on the two-reference line: convert_kjv emits
"1 foo foo" and "2 bar" (split at the second reference, span doubled),
while convert_to_kjv_format's converter emits "1 foo 1:2 bar". -/
theorem kjv_vs_gutenberg_concrete_split :
    (convert_kjv c3KjvLines).output = ["Job", "Chapter 1", "1 foo foo", "2 bar"] ∧
    (convert_gutenberg_to_kjv_format c3GutLines).output =
      ["Job", "Chapter 1", "1 foo 1:2 bar"] := by
  decide

/-- C3 amended: only convert_kjv splits multi-reference lines, and it
does so on every line: for any state and any stripped line that is
neither a book title nor empty, with reference matches m :: ms, the
line-loop body saves the pending verse and then appends exactly the
kjvSplitRec record of each adjacent reference pair — nothing when the
stripped span between the two references is empty, and otherwise a
record carrying the earlier reference's numbers whose text is exactly
that span, a space, and the same span again (the loop appends the
identical slice twice, giving "foo foo") — and leaves the last
reference's verse pending with the stripped text after it, so no stored
text reaches past the start of the following reference.
convert_to_kjv_format.py instead recognizes only the first reference
per line via re.search and keeps the whole remainder, including every
following reference, as that verse's text, as the counterexample
shows. -/
theorem c3_amended_kjv_splits_at_each_ref
    (st : KjvState) (ls : String) (m : RefMatch) (ms : List RefMatch)
    (hb : book_mapping.lookup ls = none) (hne : ¬(ls = ""))
    (hf : findRefs ls.data = m :: ms) :
    kjvMain st ls =
      kjvCursor ls.data
        { kjvSavePending st with
          verses := (kjvSavePending st).verses ++ kjvSplitRecs ls.data m ms,
          emitted := (kjvSavePending st).emitted ++ kjvSplitRecs ls.data m ms }
        (lastMatch m ms) none := by
  have h1 : kjvMain st ls =
      kjvMatchLoop ls.data (kjvFirstMatch ls.data st m ms.head?) m ms := by
    unfold kjvMain
    rw [hb, if_neg hne, hf]
  rw [h1]
  rw [show kjvFirstMatch ls.data st m ms.head? =
      kjvCursor ls.data (kjvSavePending st) m ms.head? from rfl]
  rw [kjvMatchLoop_cursor ls.data ms (kjvSavePending st) m]

/-- C3 witness: the splitting theorem at the two-reference line
"1:1 foo 1:2 bar" from the initial state, with its two concrete
matches. -/
theorem c3_amended_witness :
    kjvMain initKjvState "1:1 foo 1:2 bar" =
      kjvCursor ("1:1 foo 1:2 bar" : String).data
        { kjvSavePending initKjvState with
          verses := (kjvSavePending initKjvState).verses ++
            kjvSplitRecs ("1:1 foo 1:2 bar" : String).data
              { start := 0, stop := 3, ch := 1, vs := 1 }
              [{ start := 8, stop := 11, ch := 1, vs := 2 }],
          emitted := (kjvSavePending initKjvState).emitted ++
            kjvSplitRecs ("1:1 foo 1:2 bar" : String).data
              { start := 0, stop := 3, ch := 1, vs := 1 }
              [{ start := 8, stop := 11, ch := 1, vs := 2 }] }
        (lastMatch { start := 0, stop := 3, ch := 1, vs := 1 }
          [{ start := 8, stop := 11, ch := 1, vs := 2 }]) none :=
  c3_amended_kjv_splits_at_each_ref initKjvState "1:1 foo 1:2 bar"
    { start := 0, stop := 3, ch := 1, vs := 1 }
    [{ start := 8, stop := 11, ch := 1, vs := 2 }]
    (by rfl) (by decide) (by rfl)

/-- C7: sorting the input files with get_book_code contradicts the
canonical book_order: get_book_code finds "2CO" (index 46) as a
substring of "52COLBSB" before "COL" (index 50), while parse_usfm_file's
own detection (longest/non-digit first, per the comment at lines
127-140) correctly yields Colossians, so the output lists Colossians
before Galatians (index 47) although book_order puts Galatians first. -/
theorem c7_books_out_of_canonical_order :
    (convert_usfm_directory c7UsfmFiles).output =
      ["Colossians", "Chapter 1", "1 aaa", "", "Galatians", "Chapter 1", "1 ddd"] ∧
    book_order.indexOf "GAL" < book_order.indexOf "COL" := by
  decide

/-- C2 counterexample: a chapter in which verse 3 occurs twice is merged
into the single record "3 aaa ddd", but the duplicate-warning list stays
empty: parse_usfm_file has already merged the duplicates into the dict,
so the sanity check of convert_usfm_directory (lines 264-275) counts
unique dict keys and can never fire. -/
theorem c2_no_warning_for_duplicate :
    (convert_usfm_directory c2UsfmFiles).output = ["Genesis", "Chapter 1", "3 aaa ddd"] ∧
    (convert_usfm_directory c2UsfmFiles).warnings = [] := by
  decide

/-- C5 counterexample: two \c 1 markers with the same chapter number
produce two parsed chapter segments and hence two "Chapter 1" headers,
although the chapter number of every emitted verse record is 1, so a
header is emitted without any chapter-number change. -/
theorem c5_duplicate_chapter_header :
    (convert_usfm_directory c5UsfmFiles).output =
      ["Genesis", "Chapter 1", "1 aaa", "", "Chapter 1", "3 ccc", "4 ddd"] ∧
    (convert_usfm_directory c5UsfmFiles).output.count "Chapter 1" = 2 := by
  decide

/-- C5 amended: write_verses (shared verbatim by both Gutenberg
converters) groups the verse records into maximal runs of consecutive
records with equal chapter number and emits exactly one "Chapter N"
header line before each run — a new header exactly when the chapter of
the next record differs from that of the previous one — with a single
blank line between runs.  The USFM directory converter instead emits one
header per parsed chapter segment, so a repeated \c marker carrying an
unchanged chapter number duplicates the header, as the counterexample
shows. -/
theorem c5_amended_one_header_per_chapter_run (vs : List GRec)
    (hall : ∀ r ∈ vs, r.chapter.isSome = true) :
    write_verses vs = joinBlank ((chunkByChapter vs).map renderChunk) := by
  cases vs with
  | nil => rfl
  | cons v rest =>
    rw [write_verses, writeVersesAux_chunks (v :: rest) hall none]
    obtain ⟨run, out, heq⟩ := chunkByChapter_cons v rest
    rw [heq, joinBlank_map_renderChunk]
    have hv : v.chapter.isSome = true := hall v (List.mem_cons_self _ _)
    have hne : ¬ (v.chapter = none) := by
      intro hq
      rw [hq] at hv
      simp at hv
    simp [specAux, hne]

/-- C5 witness: the amended theorem at a concrete record list with a run
of two chapter-1 verses followed by one chapter-2 verse. -/
theorem c5_amended_witness :
    write_verses
        [{ chapter := some 1, verse := 1, text := "alpha" },
         { chapter := some 1, verse := 2, text := "beta" },
         { chapter := some 2, verse := 1, text := "gamma" }] =
      joinBlank ((chunkByChapter
        [{ chapter := some 1, verse := 1, text := "alpha" },
         { chapter := some 1, verse := 2, text := "beta" },
         { chapter := some 2, verse := 1, text := "gamma" }]).map renderChunk) :=
  c5_amended_one_header_per_chapter_run _ (by decide)

/-- C8 counterexample: chapter_num = int(json_file.stem) at line 92 runs
outside the try/except, so a .json file with a non-numeric stem raises
an uncaught ValueError that aborts the whole batch; the following file
is never converted. -/
theorem c8_nonnumeric_stem_aborts_batch :
    convert_all_kjv_json_to_html [("notes", Except.ok "html"), ("1", Except.ok "html2")] =
      Except.error "ValueError: invalid literal for int() with base 10: notes" := by
  rfl

/-- C8 amended: provided every file's stem parses as an integer (the
int(json_file.stem) of line 92 runs outside the try), the batch never
aborts: every file whose try-block processing raises is caught, its
error line is printed, it is skipped, and conversion continues, so the
batch returns exactly the HTML of the successful files, the error lines
of the failing files, and counts the successes. -/
theorem c8_amended_exceptions_caught_inside_try
    (files : List (String × Except String String))
    (h : ∀ f ∈ files, (pyInt? f.1).isSome = true) :
    convert_all_kjv_json_to_html files =
      Except.ok (jsonOks files, jsonErrs files, (jsonOks files).length) := by
  induction files with
  | nil => rfl
  | cons f rest ih =>
    obtain ⟨stem, res⟩ := f
    have hs : (pyInt? stem).isSome = true := h (stem, res) (List.mem_cons_self _ _)
    obtain ⟨n, hn⟩ := Option.isSome_iff_exists.mp hs
    have hrest : ∀ g ∈ rest, (pyInt? g.1).isSome = true :=
      fun g hg => h g (List.mem_cons_of_mem _ hg)
    simp only [convert_all_kjv_json_to_html, hn, ih hrest, jsonOks, jsonErrs,
      List.filterMap_cons]
    cases res <;> simp [Except.map, hn]

/-- C8 witness: the amended theorem applied to a concrete batch with one
failing and one succeeding file. -/
theorem c8_amended_witness :
    convert_all_kjv_json_to_html [("2", Except.error "boom"), ("3", Except.ok "h")] =
      Except.ok (jsonOks [("2", Except.error "boom"), ("3", Except.ok "h")],
        jsonErrs [("2", Except.error "boom"), ("3", Except.ok "h")],
        (jsonOks [("2", Except.error "boom"), ("3", Except.ok "h")]).length) :=
  c8_amended_exceptions_caught_inside_try _ (by decide)

/-- C9: in the verse patcher, an input line whose stripped form begins
with a digit but whose first whitespace-separated token does not parse
as an integer is written to the output unchanged at its position (the
ValueError of line 134 is caught and the line falls through to the
default append of line 137). -/
theorem c9_unparseable_verse_number_passthrough
    (st : FixState) (ls : List String) (i : Nat) (line : String)
    (h : ls[i]? = some line)
    (hd : ((pyStripS line).data.headD ' ').isDigit = true)
    (hp : pyInt? (fixTok line) = none) :
    (fixLines st ls)[i]? = some line := by
  have hp' : pyInt? (String.mk ((pySplitN1 (pyStripS line).data).headD [])) = none := hp
  rw [fixLines_getElem? st ls i line h]
  simp only [fixStep]
  rw [fixStepCore_parse_failure _ line _ hd hp']

/-- C9 witness: the line "1a weird" starts with a digit, its token "1a"
does not parse, and fix_incomplete_verses passes it through unchanged. -/
theorem c9_witness :
    (fixLines { book := none, chapter := none } ["1a weird\n"])[0]? = some "1a weird\n" :=
  c9_unparseable_verse_number_passthrough { book := none, chapter := none }
    ["1a weird\n"] 0 "1a weird\n" (by decide) (by decide) (by decide)

/-- C10: the verse patcher emits exactly one output line per input line,
in order, and a line whose output differs from its input satisfies the
replacement condition FixReplaced at the tracked (book, chapter) state:
the stripped line is a verse line whose (current book, current chapter,
verse number) is a key of the fix table and whose recorded text is
shorter than 30 characters or ends with a semicolon, comma or colon;
the output is then the patched line.  Contrapositively, every other
input line appears in the output byte-for-byte unchanged at its own
position. -/
theorem c10_only_table_hits_replaced
    (st : FixState) (ls : List String) (i : Nat) (line : String)
    (h : ls[i]? = some line) :
    (fixLines st ls).length = ls.length ∧
    ((fixLines st ls)[i]? ≠ some line →
      FixReplaced (fixStateAt st ls i) line ((fixStep (fixStateAt st ls i) line).2) ∧
      (fixLines st ls)[i]? = some ((fixStep (fixStateAt st ls i) line).2)) := by
  refine ⟨fixLines_length st ls, fun hne => ?_⟩
  have hg := fixLines_getElem? st ls i line h
  have hch : (fixStep (fixStateAt st ls i) line).2 ≠ line := by
    intro he
    exact hne (by rw [hg, he])
  obtain ⟨n, ct, hd, hm, hct, h30, hout⟩ := fixStepCore_changed _ line _ hch
  refine ⟨⟨n, ct, hd, hm, hct, ?_, hout⟩, hg⟩
  unfold fixShortCond at h30
  unfold fixText
  rcases h30 with hlen | ⟨hend, _⟩
  · exact Or.inl hlen
  · rcases hend with h' | h' | h'
    · exact Or.inr (Or.inl h')
    · exact Or.inr (Or.inr (Or.inl h'))
    · exact Or.inr (Or.inr (Or.inr h'))

/-- C10 witness: the theorem at a file where line 2 (0-based), the verse
line "3 Issachar," under (Exodus, 1), is a fix-table hit. -/
theorem c10_witness :
    (fixLines { book := none, chapter := none }
        ["Exodus\n", "Chapter 1\n", "3 Issachar,\n"]).length =
      (["Exodus\n", "Chapter 1\n", "3 Issachar,\n"] : List String).length ∧
    ((fixLines { book := none, chapter := none }
        ["Exodus\n", "Chapter 1\n", "3 Issachar,\n"])[2]? ≠ some "3 Issachar,\n" →
      FixReplaced
        (fixStateAt { book := none, chapter := none }
          ["Exodus\n", "Chapter 1\n", "3 Issachar,\n"] 2) "3 Issachar,\n"
        ((fixStep
          (fixStateAt { book := none, chapter := none }
            ["Exodus\n", "Chapter 1\n", "3 Issachar,\n"] 2) "3 Issachar,\n").2) ∧
      (fixLines { book := none, chapter := none }
        ["Exodus\n", "Chapter 1\n", "3 Issachar,\n"])[2]? =
        some ((fixStep
          (fixStateAt { book := none, chapter := none }
            ["Exodus\n", "Chapter 1\n", "3 Issachar,\n"] 2) "3 Issachar,\n").2)) :=
  c10_only_table_hits_replaced { book := none, chapter := none }
    ["Exodus\n", "Chapter 1\n", "3 Issachar,\n"] 2 "3 Issachar,\n" (by decide)

/-- C2 amended: duplicate verse numbers are merged during parsing, so
the duplicate-warning list of convert_usfm_directory is empty for every
input whatsoever: the sanity check counts unique dict keys after the
merge and can never fire. -/
theorem c2_amended_no_warnings_ever (files : List (String × List String)) :
    (convert_usfm_directory files).warnings = [] :=
  (convert_usfm_directory_inv files).1

/-- C6: every verse record emitted by the converters has non-empty text
after whitespace normalization: in convert_gutenberg_to_kjv_format every
record ever appended to verses (its accumulated text joined, stripped
and found nonempty at lines 142-156), and in parse_usfm_file every verse
of every returned chapter (its cleaned text found nonempty at lines
191-199); a blank accumulated text produces no record. -/
theorem c6_emitted_texts_nonblank
    (gutLines : List String) (fname : String) (usfmLines : List String) :
    (∀ r ∈ (convert_gutenberg_to_kjv_format gutLines).emitted,
      ¬(pyNormalizeS r.text = "")) ∧
    ∀ ch ∈ (parse_usfm_file fname usfmLines).2, ∀ p ∈ ch.2,
      ¬(pyNormalizeS p.2 = "") := by
  constructor
  · intro r hr
    exact pyNormalizeS_ne_empty _ (convert_gutenberg_inv gutLines r hr)
  · intro ch hch p hp
    exact pyNormalizeS_ne_empty _ ((parse_chapters_ok fname usfmLines ch hch).2 p hp)

/-- C6 witness: the theorem at the Genesis file whose chapter-1 verse 3
is stored with merged text "aaa ddd", a non-blank text. -/
theorem c6_witness : ¬(pyNormalizeS "aaa ddd" = "") :=
  (c6_emitted_texts_nonblank [] "01GENBSB.usfm"
      ["\\c 1\n", "\\v 3 aaa\n", "\\v 3 ddd\n"]).2
    (1, [(3, "aaa ddd")]) (by decide) (3, "aaa ddd") (by decide)

end Bible
